import Mathlib

/-!
Verification development for the rust-server flight reservation service.

The Rust sources are shallowly embedded:
* src/serialization.rs  — binary wire codec (Serializer / Deserializer / Value)
* src/controller.rs     — FlightController: flight table, monitors, reservations
* src/bin/server.rs     — UDP server main loop, invocation semantics, dispatchers
* src/bin/client.rs     — client retry loop

Machine integers are modelled as Nat / Int with explicit two's-complement
wrapping where casts occur in the source.  Buffers are lists of byte values
(Nat, each below 256 in well-formed data).  Rust HashMap / HashSet values are
modelled as association lists / lists; iteration order of a hash container is
unspecified in Rust, the lists fix one canonical order.  Rust Instant and
chrono timestamps are modelled as Nat / Int time values.  A SocketAddr is
modelled as an abstract Nat identifier.
-/

namespace RustServer

/-! ## Byte-level primitives (serialization.rs)

An i32 is serialized as 4 bytes in the configured byte order
(byteorder crate WriteBytesExt / ReadBytesExt).  We model the byte images
of a 32-bit word and the two's-complement conversions. -/

inductive ByteOrder where
  | big
  | little
deriving DecidableEq

/-- Two's-complement image of an i32 value as a Nat below 2^32
(the low 32 bits written by write_i32). -/
def i32ToNat (v : Int) : Nat :=
  (v % 4294967296).toNat

/-- Reinterpret a Nat below 2^32 as an i32 (read_i32). -/
def i32OfNat (n : Nat) : Int :=
  if n < 2147483648 then (n : Int) else (n : Int) - 4294967296

/-- The cast `x as usize` applied to an i32 value (64-bit usize). -/
def usizeOfI32 (v : Int) : Nat :=
  (v % 18446744073709551616).toNat

/-- Two's-complement wrap of an integer into i32 range: the value an i32
arithmetic operation stores in a release build when it overflows (a debug
build aborts at exactly the inputs where this differs from the exact
result). -/
def i32Wrap (v : Int) : Int :=
  i32OfNat (i32ToNat v)

/-- Little-endian 4-byte image of a 32-bit word. -/
def bytesLE4 (n : Nat) : List Nat :=
  [n % 256, n / 256 % 256, n / 65536 % 256, n / 16777216 % 256]

/-- Big-endian 4-byte image of a 32-bit word. -/
def bytesBE4 (n : Nat) : List Nat :=
  [n / 16777216 % 256, n / 65536 % 256, n / 256 % 256, n % 256]

/-- 4-byte image of a 32-bit word in the given byte order. -/
def enc4 (bo : ByteOrder) (n : Nat) : List Nat :=
  match bo with
  | .little => bytesLE4 n
  | .big => bytesBE4 n

/-- Recombine 4 bytes read in order from the buffer into a 32-bit word. -/
def natOf4 (bo : ByteOrder) (b0 b1 b2 b3 : Nat) : Nat :=
  match bo with
  | .little => b0 + 256 * b1 + 65536 * b2 + 16777216 * b3
  | .big => b3 + 256 * b2 + 65536 * b1 + 16777216 * b0

/-! ## The Value model (serialization.rs, enum Value)

Value::Array holds a Vec of Values and Value::Map a HashMap from String to
Value.  To obtain structural recursion we use mutually inductive list types;
a Rust String is its UTF-8 byte sequence (List Nat). -/

mutual
inductive Value where
  | int32 (v : Int)
  | vbool (b : Bool)
  | vstring (s : List Nat)
  | vfloat (bits : Nat)
  | varray (xs : ValueList)
  | vmap (es : EntryList)
inductive ValueList where
  | nil
  | cons (v : Value) (t : ValueList)
inductive EntryList where
  | enil
  | econs (k : List Nat) (v : Value) (t : EntryList)
end

mutual
def valueDecEq : (a b : Value) → Decidable (a = b)
  | .int32 v, .int32 w =>
    match decEq v w with
    | isTrue h => isTrue (by rw [h])
    | isFalse h => isFalse (by intro hh; cases hh; exact h rfl)
  | .vbool v, .vbool w =>
    match decEq v w with
    | isTrue h => isTrue (by rw [h])
    | isFalse h => isFalse (by intro hh; cases hh; exact h rfl)
  | .vstring v, .vstring w =>
    match decEq v w with
    | isTrue h => isTrue (by rw [h])
    | isFalse h => isFalse (by intro hh; cases hh; exact h rfl)
  | .vfloat v, .vfloat w =>
    match decEq v w with
    | isTrue h => isTrue (by rw [h])
    | isFalse h => isFalse (by intro hh; cases hh; exact h rfl)
  | .varray xs, .varray ys =>
    match valueListDecEq xs ys with
    | isTrue h => isTrue (by rw [h])
    | isFalse h => isFalse (by intro hh; cases hh; exact h rfl)
  | .vmap es, .vmap fs =>
    match entryListDecEq es fs with
    | isTrue h => isTrue (by rw [h])
    | isFalse h => isFalse (by intro hh; cases hh; exact h rfl)
  | .int32 _, .vbool _ => isFalse (by intro h; cases h)
  | .int32 _, .vstring _ => isFalse (by intro h; cases h)
  | .int32 _, .vfloat _ => isFalse (by intro h; cases h)
  | .int32 _, .varray _ => isFalse (by intro h; cases h)
  | .int32 _, .vmap _ => isFalse (by intro h; cases h)
  | .vbool _, .int32 _ => isFalse (by intro h; cases h)
  | .vbool _, .vstring _ => isFalse (by intro h; cases h)
  | .vbool _, .vfloat _ => isFalse (by intro h; cases h)
  | .vbool _, .varray _ => isFalse (by intro h; cases h)
  | .vbool _, .vmap _ => isFalse (by intro h; cases h)
  | .vstring _, .int32 _ => isFalse (by intro h; cases h)
  | .vstring _, .vbool _ => isFalse (by intro h; cases h)
  | .vstring _, .vfloat _ => isFalse (by intro h; cases h)
  | .vstring _, .varray _ => isFalse (by intro h; cases h)
  | .vstring _, .vmap _ => isFalse (by intro h; cases h)
  | .vfloat _, .int32 _ => isFalse (by intro h; cases h)
  | .vfloat _, .vbool _ => isFalse (by intro h; cases h)
  | .vfloat _, .vstring _ => isFalse (by intro h; cases h)
  | .vfloat _, .varray _ => isFalse (by intro h; cases h)
  | .vfloat _, .vmap _ => isFalse (by intro h; cases h)
  | .varray _, .int32 _ => isFalse (by intro h; cases h)
  | .varray _, .vbool _ => isFalse (by intro h; cases h)
  | .varray _, .vstring _ => isFalse (by intro h; cases h)
  | .varray _, .vfloat _ => isFalse (by intro h; cases h)
  | .varray _, .vmap _ => isFalse (by intro h; cases h)
  | .vmap _, .int32 _ => isFalse (by intro h; cases h)
  | .vmap _, .vbool _ => isFalse (by intro h; cases h)
  | .vmap _, .vstring _ => isFalse (by intro h; cases h)
  | .vmap _, .vfloat _ => isFalse (by intro h; cases h)
  | .vmap _, .varray _ => isFalse (by intro h; cases h)
def valueListDecEq : (a b : ValueList) → Decidable (a = b)
  | .nil, .nil => isTrue rfl
  | .nil, .cons _ _ => isFalse (by intro h; cases h)
  | .cons _ _, .nil => isFalse (by intro h; cases h)
  | .cons v t, .cons w u =>
    match valueDecEq v w, valueListDecEq t u with
    | isTrue h1, isTrue h2 => isTrue (by rw [h1, h2])
    | isFalse h1, _ => isFalse (by intro hh; cases hh; exact h1 rfl)
    | _, isFalse h2 => isFalse (by intro hh; cases hh; exact h2 rfl)
def entryListDecEq : (a b : EntryList) → Decidable (a = b)
  | .enil, .enil => isTrue rfl
  | .enil, .econs _ _ _ => isFalse (by intro h; cases h)
  | .econs _ _ _, .enil => isFalse (by intro h; cases h)
  | .econs k v t, .econs k' w u =>
    match decEq k k', valueDecEq v w, entryListDecEq t u with
    | isTrue h0, isTrue h1, isTrue h2 => isTrue (by rw [h0, h1, h2])
    | isFalse h0, _, _ => isFalse (by intro hh; cases hh; exact h0 rfl)
    | _, isFalse h1, _ => isFalse (by intro hh; cases hh; exact h1 rfl)
    | _, _, isFalse h2 => isFalse (by intro hh; cases hh; exact h2 rfl)
end

instance : DecidableEq Value := valueDecEq

instance : DecidableEq ValueList := valueListDecEq

instance : DecidableEq EntryList := entryListDecEq

/-- Number of elements of a ValueList (Vec::len). -/
def vlLength : ValueList → Nat
  | .nil => 0
  | .cons _ t => vlLength t + 1

/-- Number of entries of an EntryList (HashMap::len). -/
def elLength : EntryList → Nat
  | .enil => 0
  | .econs _ _ t => elLength t + 1

/-- Keys of an EntryList in order. -/
def entKeys : EntryList → List (List Nat)
  | .enil => []
  | .econs k _ t => k :: entKeys t

/-- HashMap::contains_key on the association-list model. -/
def entHasKey : EntryList → List Nat → Bool
  | .enil, _ => false
  | .econs k _ t, key => k = key || entHasKey t key

/-- HashMap::get on the association-list model. -/
def entGet : EntryList → List Nat → Option Value
  | .enil, _ => none
  | .econs k v t, key => if k = key then some v else entGet t key

/-- HashMap::insert on the association-list model: replace the value of an
existing key in place, otherwise append the new pair. -/
def entInsert (key : List Nat) (val : Value) : EntryList → EntryList
  | .enil => .econs key val .enil
  | .econs k v t => if k = key then .econs k val t else .econs k v (entInsert key val t)

/-- Append two entry lists. -/
def eappend : EntryList → EntryList → EntryList
  | .enil, e => e
  | .econs k v t, e => .econs k v (eappend t e)

/-! ## UTF-8 validation (String::from_utf8 in deserialize_string)

Mirrors the byte-level validity rules of Rust's str validation: ASCII,
2-byte sequences C2..DF, 3-byte sequences with the E0 / ED special ranges,
4-byte sequences with the F0 / F4 special ranges. -/

/-- A UTF-8 continuation byte 0x80..0xBF. -/
def utf8Cont (b : Nat) : Bool :=
  128 ≤ b && b ≤ 191

/-- Byte-level UTF-8 validity of a buffer. -/
def validUtf8 : List Nat → Bool
  | [] => true
  | b :: rest =>
    if b < 128 then validUtf8 rest
    else if 194 ≤ b && b ≤ 223 then
      match rest with
      | c1 :: r => utf8Cont c1 && validUtf8 r
      | [] => false
    else if b = 224 then
      match rest with
      | c1 :: c2 :: r => (160 ≤ c1 && c1 ≤ 191) && utf8Cont c2 && validUtf8 r
      | _ => false
    else if 225 ≤ b && b ≤ 236 then
      match rest with
      | c1 :: c2 :: r => utf8Cont c1 && utf8Cont c2 && validUtf8 r
      | _ => false
    else if b = 237 then
      match rest with
      | c1 :: c2 :: r => (128 ≤ c1 && c1 ≤ 159) && utf8Cont c2 && validUtf8 r
      | _ => false
    else if 238 ≤ b && b ≤ 239 then
      match rest with
      | c1 :: c2 :: r => utf8Cont c1 && utf8Cont c2 && validUtf8 r
      | _ => false
    else if b = 240 then
      match rest with
      | c1 :: c2 :: c3 :: r => (144 ≤ c1 && c1 ≤ 191) && utf8Cont c2 && utf8Cont c3 && validUtf8 r
      | _ => false
    else if 241 ≤ b && b ≤ 243 then
      match rest with
      | c1 :: c2 :: c3 :: r => utf8Cont c1 && utf8Cont c2 && utf8Cont c3 && validUtf8 r
      | _ => false
    else if b = 244 then
      match rest with
      | c1 :: c2 :: c3 :: r => (128 ≤ c1 && c1 ≤ 143) && utf8Cont c2 && utf8Cont c3 && validUtf8 r
      | _ => false
    else false

/-! ## Serializer (serialization.rs, struct Serializer)

serialize writes a one-byte type tag (DataType::to_u8: 1=Int32, 2=Bool,
3=String, 4=Float, 5=Array, 6=Map) followed by the payload.
serialize_string and the collection serializers write their length through
serialize_int32, so the length carries its own Int32 tag byte. -/

/-- Payload bytes written by write_i32 for an i32 value. -/
def encInt32 (bo : ByteOrder) (v : Int) : List Nat :=
  enc4 bo (i32ToNat v)

/-- Serializer::serialize_int32: tag byte 1 then the 4 payload bytes. -/
def serializeInt32 (bo : ByteOrder) (v : Int) : List Nat :=
  1 :: encInt32 bo v

/-- Serializer::serialize_string: tag byte 3, the length via serialize_int32
(with the length cast to i32), then the raw UTF-8 bytes. -/
def serializeStr (bo : ByteOrder) (s : List Nat) : List Nat :=
  3 :: serializeInt32 bo (s.length : Int) ++ s

mutual
/-- The byte image of a Value (Serialize impls in serialization.rs). -/
def serializeValue (bo : ByteOrder) : Value → List Nat
  | .int32 v => serializeInt32 bo v
  | .vbool b => [2, if b then 1 else 0]
  | .vstring s => serializeStr bo s
  | .vfloat bits => 4 :: enc4 bo bits
  | .varray xs => 5 :: serializeInt32 bo (vlLength xs : Int) ++ serializeElems bo xs
  | .vmap es => 6 :: serializeInt32 bo (elLength es : Int) ++ serializeEntries bo es
/-- Serializer::serialize_array body: each element in order. -/
def serializeElems (bo : ByteOrder) : ValueList → List Nat
  | .nil => []
  | .cons v t => serializeValue bo v ++ serializeElems bo t
/-- HashMap Serialize body: key (as string) then value, for each entry. -/
def serializeEntries (bo : ByteOrder) : EntryList → List Nat
  | .enil => []
  | .econs k v t => serializeStr bo k ++ serializeValue bo v ++ serializeEntries bo t
end

/-! ## Deserializer (serialization.rs, struct Deserializer)

The source recursion is on a byte cursor; we use an explicit fuel argument
(structural recursion) and a wrapper that supplies fuel that is provably
sufficient for the buffers the theorems below consider.
Error kinds mirror the io::ErrorKind values produced by the source:
invalidData for the InvalidData errors of read_type / into_string /
from_utf8, eof for failed reads past the end of the buffer. -/

inductive DecErr where
  | invalidData
  | eof
deriving DecidableEq

/-- Cursor::read_u8. -/
def readU8 : List Nat → Except DecErr (Nat × List Nat)
  | [] => .error .eof
  | b :: rest => .ok (b, rest)

/-- Deserializer::deserialize_int32 (read_i32 in the configured byte order). -/
def readInt32 (bo : ByteOrder) : List Nat → Except DecErr (Int × List Nat)
  | b0 :: b1 :: b2 :: b3 :: rest => .ok (i32OfNat (natOf4 bo b0 b1 b2 b3), rest)
  | _ => .error .eof

/-- read_exact into a buffer of a given size. -/
def readBytes : Nat → List Nat → Except DecErr (List Nat × List Nat)
  | 0, l => .ok ([], l)
  | _ + 1, [] => .error .eof
  | n + 1, b :: rest =>
    match readBytes n rest with
    | .ok (bs, r) => .ok (b :: bs, r)
    | .error e => .error e

/-- Value::into_string: a String value yields its content, every other
variant is an InvalidData error. -/
def intoString : Value → Except DecErr (List Nat)
  | .vstring s => .ok s
  | _ => .error .invalidData

/-- Deserializer::deserialize_string: the cursor position is advanced by one
(skipping the tag byte of the serialized length) without validating it, the
length is read as an i32 and cast to usize, that many bytes are read, and
the result must be valid UTF-8 (a from_utf8 failure becomes InvalidData). -/
def deserializeStr (bo : ByteOrder) (l : List Nat) : Except DecErr (List Nat × List Nat) :=
  match readInt32 bo (l.drop 1) with
  | .error e => .error e
  | .ok (len, l1) =>
    match readBytes (usizeOfI32 len) l1 with
    | .error e => .error e
    | .ok (bs, r) => if validUtf8 bs then .ok (bs, r) else .error .invalidData

mutual
/-- Deserializer::deserialize_next.  The tag byte is read by read_type,
which rejects tags outside 1..=6 with InvalidData; then the branch for the
tag parses the payload.  Array and Map skip one byte (the tag of their
serialized length), read the i32 length, cast it to usize and loop. -/
def deserializeNextF (bo : ByteOrder) : Nat → List Nat → Except DecErr (Value × List Nat)
  | 0, _ => .error .eof
  | fuel + 1, l =>
    match readU8 l with
    | .error e => .error e
    | .ok (b, l1) =>
      if b = 1 then
        match readInt32 bo l1 with
        | .error e => .error e
        | .ok (v, r) => .ok (.int32 v, r)
      else if b = 2 then
        match readU8 l1 with
        | .error e => .error e
        | .ok (x, r) => .ok (.vbool (x != 0), r)
      else if b = 3 then
        match deserializeStr bo l1 with
        | .error e => .error e
        | .ok (s, r) => .ok (.vstring s, r)
      else if b = 4 then
        match l1 with
        | b0 :: b1 :: b2 :: b3 :: r => .ok (.vfloat (natOf4 bo b0 b1 b2 b3), r)
        | _ => .error .eof
      else if b = 5 then
        match readInt32 bo (l1.drop 1) with
        | .error e => .error e
        | .ok (len, l2) =>
          match deserializeElemsF bo fuel (usizeOfI32 len) l2 with
          | .error e => .error e
          | .ok (xs, r) => .ok (.varray xs, r)
      else if b = 6 then
        match readInt32 bo (l1.drop 1) with
        | .error e => .error e
        | .ok (len, l2) =>
          match deserializeEntriesF bo fuel (usizeOfI32 len) .enil l2 with
          | .error e => .error e
          | .ok (es, r) => .ok (.vmap es, r)
      else .error .invalidData
/-- The deserialize_array element loop: count elements pushed in order. -/
def deserializeElemsF (bo : ByteOrder) : Nat → Nat → List Nat → Except DecErr (ValueList × List Nat)
  | 0, _, _ => .error .eof
  | _ + 1, 0, l => .ok (.nil, l)
  | fuel + 1, n + 1, l =>
    match deserializeNextF bo fuel l with
    | .error e => .error e
    | .ok (v, l1) =>
      match deserializeElemsF bo fuel n l1 with
      | .error e => .error e
      | .ok (vs, r) => .ok (.cons v vs, r)
/-- The deserialize_map entry loop: each key must deserialize to a String
(deserialize_next then into_string), the value follows, and the pair is
inserted into the accumulated map (HashMap::insert, later keys win). -/
def deserializeEntriesF (bo : ByteOrder) : Nat → Nat → EntryList → List Nat → Except DecErr (EntryList × List Nat)
  | 0, _, _, _ => .error .eof
  | _ + 1, 0, acc, l => .ok (acc, l)
  | fuel + 1, n + 1, acc, l =>
    match deserializeNextF bo fuel l with
    | .error e => .error e
    | .ok (kv, l1) =>
      match intoString kv with
      | .error e => .error e
      | .ok k =>
        match deserializeNextF bo fuel l1 with
        | .error e => .error e
        | .ok (v, l2) => deserializeEntriesF bo fuel n (entInsert k v acc) l2
end

/-- Fuel that suffices for the value parses considered below. -/
def deserializeNext (bo : ByteOrder) (l : List Nat) : Except DecErr (Value × List Nat) :=
  deserializeNextF bo (2 * l.length + 2) l

/-! ## Round-trip infrastructure

wfValue captures the invariants a Rust Value satisfies by construction:
i32 fields are in i32 range, float bit patterns fit 32 bits, Strings are
valid UTF-8, collection lengths fit an i32 (the source casts them with
`as i32`), and HashMap keys are distinct. -/

/-- No key occurs twice (a HashMap invariant). -/
def keysDistinct : EntryList → Bool
  | .enil => true
  | .econs k _ t => !entHasKey t k && keysDistinct t

mutual
def wfValue : Value → Bool
  | .int32 v => decide (-2147483648 ≤ v) && decide (v < 2147483648)
  | .vbool _ => true
  | .vstring s => validUtf8 s && decide (s.length < 2147483648)
  | .vfloat bits => decide (bits < 4294967296)
  | .varray xs => decide (vlLength xs < 2147483648) && wfElems xs
  | .vmap es => decide (elLength es < 2147483648) && keysDistinct es && wfEntries es
def wfElems : ValueList → Bool
  | .nil => true
  | .cons v t => wfValue v && wfElems t
def wfEntries : EntryList → Bool
  | .enil => true
  | .econs k v t => validUtf8 k && decide (k.length < 2147483648) && wfValue v && wfEntries t
end

/-! Fuel lower bounds sufficient for deserializing a serialized value. -/

mutual
def needV : Value → Nat
  | .int32 _ => 1
  | .vbool _ => 1
  | .vstring _ => 1
  | .vfloat _ => 1
  | .varray xs => needElems xs + 1
  | .vmap es => needEntries es + 1
def needElems : ValueList → Nat
  | .nil => 1
  | .cons v t => max (needV v) (needElems t) + 1
def needEntries : EntryList → Nat
  | .enil => 1
  | .econs _ v t => max (needV v) (needEntries t) + 1
end

/-! ## Text helpers

ascii maps a Lean string literal to its byte sequence (all protocol literals
are ASCII).  natDec / intDec model Rust's to_string for integers, digitsVal /
parseI32 model str::parse with the i32 range check. -/

/-- Byte sequence of an ASCII string literal. -/
def ascii (s : String) : List Nat :=
  s.data.map Char.toNat

/-- Decimal digits (as ASCII bytes) of a Nat, most significant first. -/
def natDecAux : Nat → Nat → List Nat
  | 0, _ => []
  | f + 1, n => if n < 10 then [48 + n] else natDecAux f (n / 10) ++ [48 + n % 10]

def natDec (n : Nat) : List Nat :=
  natDecAux (n + 1) n

/-- i32::to_string. -/
def intDec (v : Int) : List Nat :=
  if v < 0 then 45 :: natDec v.natAbs else natDec v.toNat

/-- Value of a nonempty all-digit byte sequence. -/
def digitsValAux : Nat → List Nat → Option Nat
  | acc, [] => some acc
  | acc, d :: t => if 48 ≤ d ∧ d ≤ 57 then digitsValAux (acc * 10 + (d - 48)) t else none

def digitsVal : List Nat → Option Nat
  | [] => none
  | l => digitsValAux 0 l

/-- str::parse::<i32>: optional sign, at least one digit, i32 range check. -/
def parseI32 (s : List Nat) : Option Int :=
  match s with
  | 43 :: rest =>
    (digitsVal rest).bind (fun n => if n ≤ 2147483647 then some (n : Int) else none)
  | 45 :: rest =>
    (digitsVal rest).bind (fun n => if n ≤ 2147483648 then some (-(n : Int)) else none)
  | _ =>
    (digitsVal s).bind (fun n => if n ≤ 2147483647 then some (n : Int) else none)

/-- Vec::join with a comma separator (flight id lists in responses). -/
def commaJoin : List (List Nat) → List Nat
  | [] => []
  | [x] => x
  | x :: y :: t => x ++ 44 :: commaJoin (y :: t)

/-! ## Domain model (flight_models.rs) and FlightController (controller.rs)

HashMap i32 -> Flight and HashMap i32 -> HashSet MonitoringClient become
association lists / lists; SocketAddr is an abstract Nat; Instant is a Nat
time value; NaiveDateTime an abstract Int timestamp; the f32 airfare is kept
as its bit pattern (no float arithmetic is performed on it). -/

structure Flight where
  flight_id : Int
  source : List Nat
  destination : List Nat
  departure_time : Int
  airfare : Nat
  seats_available : Int
deriving DecidableEq

structure MonitoringClient where
  addr : Nat
  expiration_time : Nat
deriving DecidableEq

structure FlightUpdate where
  flight_id : Int
  seats_available : Int
deriving DecidableEq

inductive Request where
  | queryFlightIds (source : List Nat) (destination : List Nat)
  | queryFlightDetails (flight_id : Int)
  | reserveSeats (flight_id : Int) (seats : Int)
  | monitorFlight (flight_id : Int) (monitor_interval : Int)
deriving DecidableEq

def exceptDecEq {ε α : Type} [DecidableEq ε] [DecidableEq α] :
    (a b : Except ε α) → Decidable (a = b)
  | .ok x, .ok y =>
    match decEq x y with
    | isTrue h => isTrue (by rw [h])
    | isFalse h => isFalse (by intro hh; cases hh; exact h rfl)
  | .error e, .error e' =>
    match decEq e e' with
    | isTrue h => isTrue (by rw [h])
    | isFalse h => isFalse (by intro hh; cases hh; exact h rfl)
  | .ok _, .error _ => isFalse (by intro h; cases h)
  | .error _, .ok _ => isFalse (by intro h; cases h)

instance {ε α : Type} [DecidableEq ε] [DecidableEq α] : DecidableEq (Except ε α) :=
  exceptDecEq

inductive CResponse where
  | flightIds (ids : List Int)
  | flightDetails (departure_time : Option Int) (airfare : Option Nat) (seats_available : Option Int)
  | reservation (r : Except (List Nat) Unit)
  | monitoringStarted (r : Except (List Nat) Unit)
  | cerror (msg : List Nat)
deriving DecidableEq

structure FlightController where
  flights : List (Int × Flight)
  monitoring_clients : List (Int × List MonitoringClient)
deriving DecidableEq

/-- HashMap::get on the flight table. -/
def flightsGet : List (Int × Flight) → Int → Option Flight
  | [], _ => none
  | (k, f) :: t, fid => if k = fid then some f else flightsGet t fid

/-- The in-place mutation of get_mut followed by seats_available -= seats.
Both operands are i32, so the stored difference is the two's-complement
wrap of the exact one (release profile; a debug build aborts on the
overflowing inputs instead). -/
def flightsSubSeats : List (Int × Flight) → Int → Int → List (Int × Flight)
  | [], _, _ => []
  | (k, f) :: t, fid, seats =>
    if k = fid then (k, { f with seats_available := i32Wrap (f.seats_available - seats) }) :: t
    else (k, f) :: flightsSubSeats t fid seats

/-- HashMap::insert keyed by the flight id (FlightController::add_flight). -/
def flightsInsert : List (Int × Flight) → Flight → List (Int × Flight)
  | [], f => [(f.flight_id, f)]
  | (k, g) :: t, f => if k = f.flight_id then (k, f) :: t else (k, g) :: flightsInsert t f

/-- HashMap::get on the monitor registry. -/
def monsGet : List (Int × List MonitoringClient) → Int → Option (List MonitoringClient)
  | [], _ => none
  | (k, s) :: t, fid => if k = fid then some s else monsGet t fid

/-- HashSet::insert (no-op when the exact (addr, expiration) pair exists). -/
def setInsert (cl : MonitoringClient) (s : List MonitoringClient) : List MonitoringClient :=
  if cl ∈ s then s else s ++ [cl]

/-- entry(flight_id).or_insert_with(HashSet::new).insert(client). -/
def monsInsert : List (Int × List MonitoringClient) → Int → MonitoringClient → List (Int × List MonitoringClient)
  | [], fid, cl => [(fid, setInsert cl [])]
  | (k, s) :: t, fid, cl =>
    if k = fid then (k, setInsert cl s) :: t else (k, s) :: monsInsert t fid cl

/-- FlightController::new. -/
def FlightController.new : FlightController :=
  { flights := [], monitoring_clients := [] }

/-- FlightController::add_flight. -/
def add_flight (c : FlightController) (f : Flight) : FlightController :=
  { c with flights := flightsInsert c.flights f }

/-- FlightController::query_flight_ids: linear scan, exact match on source
and destination. -/
def query_flight_ids (c : FlightController) (source destination : List Nat) : List Int :=
  (c.flights.filter (fun p => p.2.source = source ∧ p.2.destination = destination)).map Prod.fst

/-- FlightController::reserve_seats: check-then-decrement; on a missing
flight or insufficient seats the state is unchanged and an error string is
returned. -/
def reserve_seats (c : FlightController) (flight_id seats : Int) :
    FlightController × Except (List Nat) Unit :=
  match flightsGet c.flights flight_id with
  | some flight =>
    if seats ≤ flight.seats_available then
      ({ c with flights := flightsSubSeats c.flights flight_id seats }, .ok ())
    else
      (c, .error (ascii "Not enough seats available"))
  | none => (c, .error (ascii "Flight not found"))

/-- FlightController::start_monitoring: expiration = now + interval seconds
(the i32 interval is cast to u64 by Duration::from_secs). -/
def start_monitoring (c : FlightController) (flight_id : Int) (monitor_interval : Int)
    (client_addr : Nat) (now : Nat) : FlightController × Except (List Nat) Unit :=
  match flightsGet c.flights flight_id with
  | some _ =>
    let client : MonitoringClient :=
      { addr := client_addr, expiration_time := now + usizeOfI32 monitor_interval }
    ({ c with monitoring_clients := monsInsert c.monitoring_clients flight_id client }, .ok ())
  | none => (c, .error (ascii "Flight not found"))

/-- FlightController::prepare_monitoring_updates: one update per registered
client of the flight, carrying the flight's current seats_available. -/
def prepare_monitoring_updates (c : FlightController) (flight_id : Int) :
    List (Nat × FlightUpdate) :=
  match monsGet c.monitoring_clients flight_id with
  | some clients =>
    match flightsGet c.flights flight_id with
    | some flight =>
      clients.map (fun cl => (cl.addr, { flight_id := flight_id, seats_available := flight.seats_available }))
    | none => []
  | none => []

/-- FlightController::clean_expired_monitors: drop clients whose expiration
is not strictly in the future, then drop flights with no clients left. -/
def clean_expired_monitors (c : FlightController) (now : Nat) : FlightController :=
  { c with
    monitoring_clients :=
      (c.monitoring_clients.map
        (fun p => (p.1, p.2.filter (fun cl => now < cl.expiration_time)))).filter
        (fun p => !p.2.isEmpty) }

/-- The bytes of the push notification sent to a monitoring client in the
ReserveSeats branch of handle_request: a little-endian serialized string map
with action "5", the flight id and the update's seats_available rendered in
decimal.  (HashMap iteration order is unspecified in Rust; the model fixes
the insertion order action, flight_id, seats_available.) -/
def pushBytes (flight_id seats_available : Int) : List Nat :=
  serializeValue .little (.vmap
    (.econs (ascii "action") (.vstring (ascii "5"))
      (.econs (ascii "flight_id") (.vstring (intDec flight_id))
        (.econs (ascii "seats_available") (.vstring (intDec seats_available)) .enil))))

/-- FlightController::handle_request.  Returns none where the source panics
(MonitorFlight with no client address unwraps a None).  The third component
lists the push datagrams sent to monitoring clients, in order. -/
def handle_request (c : FlightController) (now : Nat) (req : Request)
    (client_addr : Option Nat) :
    Option (FlightController × CResponse × List (Nat × List Nat)) :=
  let c0 := clean_expired_monitors c now
  match req with
  | .queryFlightIds source destination =>
    let ids := query_flight_ids c0 source destination
    if ids.isEmpty then some (c0, .cerror (ascii "No matching flights found"), [])
    else some (c0, .flightIds ids, [])
  | .queryFlightDetails flight_id =>
    match flightsGet c0.flights flight_id with
    | some f =>
      some (c0, .flightDetails (some f.departure_time) (some f.airfare) (some f.seats_available), [])
    | none => some (c0, .cerror (ascii "Flight not found"), [])
  | .reserveSeats flight_id seats =>
    match reserve_seats c0 flight_id seats with
    | (c1, .ok _) =>
      let updates := prepare_monitoring_updates c1 flight_id
      let sends := (updates.filter (fun u => u.2.flight_id = flight_id ∧ 0 < seats)).map
        (fun u => (u.1, pushBytes flight_id u.2.seats_available))
      some (c1, .reservation (.ok ()), sends)
    | (c1, .error e) => some (c1, .reservation (.error e), [])
  | .monitorFlight flight_id monitor_interval =>
    match client_addr with
    | none => none
    | some addr =>
      match start_monitoring c0 flight_id monitor_interval addr now with
      | (c1, .ok _) => some (c1, .monitoringStarted (.ok ()), [])
      | (c1, .error e) => some (c1, .monitoringStarted (.error e), [])

/-! ## Server (src/bin/server.rs)

The main loop decodes each datagram, reads request_id and
invocation_semantic with unwraps (a panic aborts the process on a missing
or non-string field), then branches on the semantic.  fn handle_request
re-decodes the datagram, extracts action and request_id through ok_or
(errors are returned, logged by main, and the loop continues), routes on
the action code, and appends the request_id to the response map before
serializing it. -/

/-- The server's sample flight table (init_flight_controller).  The
departure timestamps are abstract values; the airfares keep the f32 bit
patterns of 200.0, 500.0 and 300.0. -/
def init_flight_controller : FlightController :=
  add_flight (add_flight (add_flight FlightController.new
    { flight_id := 0, source := ascii "New York", destination := ascii "London",
      departure_time := 0, airfare := 1128792064, seats_available := 50 })
    { flight_id := 1, source := ascii "New York", destination := ascii "London",
      departure_time := 1, airfare := 1140457472, seats_available := 100 })
    { flight_id := 2, source := ascii "London", destination := ascii "Paris",
      departure_time := 2, airfare := 1133903872, seats_available := 150 }

/-- Abstract rendering of the Display form of the abstract NaiveDateTime
timestamp (its exact text never matters to the claims). -/
def dtBytes (t : Int) : List Nat :=
  intDec t

/-- Abstract rendering of the Display form of an f32 bit pattern (its exact
text never matters to the claims). -/
def floatBytes (bits : Nat) : List Nat :=
  natDec bits

/-- payload.get(key) followed by as_string(): some only when the field is
present and holds a String. -/
def envStr (env : EntryList) (key : String) : Option (List Nat) :=
  match entGet env (ascii key) with
  | some (.vstring s) => some s
  | _ => none

/-- HashMap::insert on a string-to-string response map. -/
def strMapInsert : List (List Nat × List Nat) → List Nat → List Nat → List (List Nat × List Nat)
  | [], k, v => [(k, v)]
  | (k', v') :: t, k, v =>
    if k' = k then (k', v) :: t else (k', v') :: strMapInsert t k v

/-- View a string map as serializable entries. -/
def strEntries : List (List Nat × List Nat) → EntryList
  | [] => .enil
  | (k, v) :: t => .econs k (.vstring v) (strEntries t)

/-- Serializer::serialize_map of a string map, little-endian (the order is
the model's canonical insertion order; Rust's HashMap iteration order is
unspecified). -/
def serializeStrMap (m : List (List Nat × List Nat)) : List Nat :=
  serializeValue .little (.vmap (strEntries m))

/-- The 500 response with a message (shared shape of all error arms). -/
def statusErr (msg : List Nat) : List (List Nat × List Nat) :=
  [(ascii "status", ascii "500"), (ascii "message", msg)]

/-- fn query_flight_ids in server.rs.  none models a panic: the source
unwraps the source / destination fields.  The dispatcher maps an empty id
list (and the controller's own empty-result error) to a 500 response. -/
def server_query_flight_ids (env : EntryList) (c : FlightController) (now : Nat) :
    Option (List (List Nat × List Nat) × FlightController × List (Nat × List Nat)) :=
  match envStr env "source", envStr env "destination" with
  | some source, some destination =>
    match handle_request c now (.queryFlightIds source destination) none with
    | some (c', resp, pushes) =>
      match resp with
      | .flightIds ids =>
        if ids.isEmpty then
          some (statusErr (ascii "No matching flights found"), c', pushes)
        else
          some ([(ascii "status", ascii "200"),
                 (ascii "flight_ids", commaJoin (ids.map intDec))], c', pushes)
      | .cerror e => some (statusErr e, c', pushes)
      | _ => some (statusErr (ascii "Unknown error"), c', pushes)
    | none => none
  | _, _ => none

/-- fn query_flight_details in server.rs.  The source unwraps the flight_id
field, its parse to i32, and the three Option payload fields of the
FlightDetails response (none models those panics). -/
def server_query_flight_details (env : EntryList) (c : FlightController) (now : Nat) :
    Option (List (List Nat × List Nat) × FlightController × List (Nat × List Nat)) :=
  match envStr env "flight_id" with
  | some fidS =>
    match parseI32 fidS with
    | some fid =>
      match handle_request c now (.queryFlightDetails fid) none with
      | some (c', resp, pushes) =>
        match resp with
        | .flightDetails dt af sa =>
          match dt, af, sa with
          | some d, some a, some s =>
            some ([(ascii "status", ascii "200"),
                   (ascii "departure_time", dtBytes d),
                   (ascii "airfare", floatBytes a),
                   (ascii "seats_available", intDec s)], c', pushes)
          | _, _, _ => none
        | .cerror e => some (statusErr e, c', pushes)
        | _ => some (statusErr (ascii "Unknown error"), c', pushes)
      | none => none
    | none => none
  | none => none

/-- fn reserve_seats in server.rs.  The source unwraps the flight_id and
seats fields and their i32 parses (none models those panics). -/
def server_reserve_seats (env : EntryList) (c : FlightController) (now : Nat) :
    Option (List (List Nat × List Nat) × FlightController × List (Nat × List Nat)) :=
  match envStr env "flight_id", envStr env "seats" with
  | some fidS, some seatsS =>
    match parseI32 fidS, parseI32 seatsS with
    | some fid, some seats =>
      match handle_request c now (.reserveSeats fid seats) none with
      | some (c', resp, pushes) =>
        match resp with
        | .reservation (.ok _) => some ([(ascii "status", ascii "200")], c', pushes)
        | .reservation (.error e) => some (statusErr e, c', pushes)
        | .cerror e => some (statusErr e, c', pushes)
        | _ => some (statusErr (ascii "Unknown error"), c', pushes)
      | none => none
    | _, _ => none
  | _, _ => none

/-- fn monitor_flight in server.rs.  The source unwraps the flight_id and
monitor_interval fields and their i32 parses (none models those panics). -/
def server_monitor_flight (env : EntryList) (c : FlightController) (now : Nat) (src : Nat) :
    Option (List (List Nat × List Nat) × FlightController × List (Nat × List Nat)) :=
  match envStr env "flight_id", envStr env "monitor_interval" with
  | some fidS, some intS =>
    match parseI32 fidS, parseI32 intS with
    | some fid, some interval =>
      match handle_request c now (.monitorFlight fid interval) (some src) with
      | some (c', resp, pushes) =>
        match resp with
        | .monitoringStarted (.ok _) => some ([(ascii "status", ascii "200")], c', pushes)
        | .monitoringStarted (.error e) => some (statusErr e, c', pushes)
        | .cerror e => some (statusErr e, c', pushes)
        | _ => some (statusErr (ascii "Unknown error"), c', pushes)
      | none => none
    | _, _ => none
  | _, _ => none

/-- Outcome of fn handle_request in server.rs: a serialized response with
the updated controller and the pushes emitted while handling, a returned
error (logged by main, loop continues), or a panic (process aborts). -/
inductive HandleResult where
  | ok (resp : List Nat) (c' : FlightController) (pushes : List (Nat × List Nat))
  | errLogged
  | panic
deriving DecidableEq

/-- Attach the request id to the response map and serialize it, or
propagate a dispatcher panic. -/
def wrapDispatch
    (r : Option (List (List Nat × List Nat) × FlightController × List (Nat × List Nat)))
    (request_id : List Nat) : HandleResult :=
  match r with
  | none => .panic
  | some (dataMap, c', pushes) =>
    .ok (serializeStrMap (strMapInsert dataMap (ascii "request_id") request_id)) c' pushes

/-- fn handle_request in server.rs: decode, extract action and request_id
(ok_or errors become errLogged), route on the action code, append the
request_id, serialize. -/
def server_handle_request (data : List Nat) (c : FlightController) (now : Nat) (src : Nat) :
    HandleResult :=
  match deserializeNext .little data with
  | .error _ => .errLogged
  | .ok (payload, _) =>
    match payload with
    | .vmap env =>
      match entGet env (ascii "action") with
      | some (.vstring action) =>
        match entGet env (ascii "request_id") with
        | some (.vstring request_id) =>
          if action = ascii "1" then
            wrapDispatch (server_query_flight_ids env c now) request_id
          else if action = ascii "2" then
            wrapDispatch (server_query_flight_details env c now) request_id
          else if action = ascii "3" then
            wrapDispatch (server_reserve_seats env c now) request_id
          else if action = ascii "4" then
            wrapDispatch (server_monitor_flight env c now src) request_id
          else .errLogged
        | some _ => .errLogged
        | none => .errLogged
      | some _ => .errLogged
      | none => .errLogged
    | _ => .errLogged

/-- A PendingResponseCache entry (struct RequestInfo): the Utc timestamp at
which the request was answered and the exact serialized response bytes. -/
structure RequestInfo where
  timestamp : Int
  response : List Nat
deriving DecidableEq

/-- HashMap::get on the response cache (STORE_REQUEST). -/
def cacheGet : List (List Nat × RequestInfo) → List Nat → Option RequestInfo
  | [], _ => none
  | (k, i) :: t, id => if k = id then some i else cacheGet t id

/-- HashMap::insert on the response cache. -/
def cacheInsert : List (List Nat × RequestInfo) → List Nat → RequestInfo → List (List Nat × RequestInfo)
  | [], id, i => [(id, i)]
  | (k, i') :: t, id, i =>
    if k = id then (k, i) :: t else (k, i') :: cacheInsert t id i

/-- The process-wide server state: the flight controller and the single
response cache (STORE_REQUEST) shared by both invocation semantics. -/
structure ServerState where
  controller : FlightController
  cache : List (List Nat × RequestInfo)
deriving DecidableEq

/-- Observable events of one loop iteration, in program order: push
datagrams sent while handling, the rand::random draw (recorded with the
outcome of its later comparison against the loss rate: lost means the
response is withheld), the cache insertion, response datagrams sent to the
requester, and eprintln logging of a handling error. -/
inductive SEvent where
  | draw (lost : Bool)
  | cacheStore (id : List Nat) (resp : List Nat)
  | send (dst : Nat) (bytes : List Nat)
  | logged
deriving DecidableEq

/-- Result of one main-loop iteration: continue with a new state, panic
(process aborts), or a fatal error propagated out of main by the ? operator
(the decode / as_map failures at the top of the loop). -/
inductive StepResult where
  | next (s : ServerState) (events : List SEvent)
  | panic
  | fatal
deriving DecidableEq

/-- One iteration of the main receive loop on a datagram, given the Instant
now, the Utc timestamp, and whether the loss draw indicates loss. -/
def serverStep (s : ServerState) (data : List Nat) (src : Nat) (now : Nat) (utc : Int)
    (lost : Bool) : StepResult :=
  match deserializeNext .little data with
  | .error _ => .fatal
  | .ok (payload, _) =>
    match payload with
    | .vmap env =>
      match entGet env (ascii "request_id") with
      | some (.vstring request_id) =>
        match entGet env (ascii "invocation_semantic") with
        | some (.vstring sem) =>
          if sem = ascii "at-least-once" then
            match server_handle_request data s.controller now src with
            | .ok resp c' pushes =>
              .next { controller := c', cache := cacheInsert s.cache request_id ⟨utc, resp⟩ }
                (pushes.map (fun p => SEvent.send p.1 p.2) ++
                  [SEvent.draw lost, SEvent.cacheStore request_id resp] ++
                  (if lost then [] else [SEvent.send src resp]))
            | .errLogged => .next s [SEvent.logged]
            | .panic => .panic
          else if sem = ascii "at-most-once" then
            match cacheGet s.cache request_id with
            | some info => .next s [SEvent.send src info.response]
            | none =>
              match server_handle_request data s.controller now src with
              | .ok resp c' pushes =>
                .next { controller := c', cache := cacheInsert s.cache request_id ⟨utc, resp⟩ }
                  (pushes.map (fun p => SEvent.send p.1 p.2) ++
                    [SEvent.draw lost, SEvent.cacheStore request_id resp] ++
                    (if lost then [] else [SEvent.send src resp]))
              | .errLogged => .next s [SEvent.logged]
              | .panic => .panic
          else .next s []
        | some _ => .panic
        | none => .panic
      | some _ => .panic
      | none => .panic
    | _ => .fatal

/-- n successive iterations of the main loop on the same datagram (a client
retransmitting); none when an iteration panics or is fatal. -/
def iterServer (data : List Nat) (src : Nat) (now : Nat) (utc : Int) (lost : Bool) :
    Nat → ServerState → Option (ServerState × List (List SEvent))
  | 0, s => some (s, [])
  | n + 1, s =>
    match serverStep s data src now utc lost with
    | .next s' evs =>
      match iterServer data src now utc lost n s' with
      | some (s'', l) => some (s'', evs :: l)
      | none => none
    | _ => none

/-! ## Client retry loop (src/bin/client.rs)

send_request_and_receive_response serializes the request map once, sends
it, then repeats: wait up to the timeout for a datagram; when one arrives
the outer loop breaks with the result; when the window elapses without one,
attempt is incremented and the identical bytes are resent only while
attempt < retry — but the outer loop has no exit in that branch, so it
iterates again regardless.  The TimedOut error built after the loop is
reachable only if the loop breaks without a result, which never happens.
Each list element below is the outcome of one wait window: some bytes when
a datagram arrived in that window, none when the window timed out. -/

inductive ClientFinal where
  | got (resp : List Nat) (resends : Nat)
  | looping (attempt : Nat) (resends : Nat)
deriving DecidableEq

/-- The outer loop of send_request_and_receive_response, tracking the
attempt counter and how many times the identical request bytes were
resent.  looping means the loop is still running after consuming the given
wait windows. -/
def clientRun (retry : Nat) (attempt resends : Nat) : List (Option (List Nat)) → ClientFinal
  | [] => .looping attempt resends
  | some r :: _ => .got r resends
  | none :: rest =>
    clientRun retry (attempt + 1) (if attempt + 1 < retry then resends + 1 else resends) rest

/-! ## Reservation invariant lemmas (claim C1) -/

/-- Every flight in the table has a non-negative seat count. -/
def allSeatsNonneg (c : FlightController) : Prop :=
  ∀ p ∈ c.flights, 0 ≤ p.2.seats_available

instance (c : FlightController) : Decidable (allSeatsNonneg c) := by
  unfold allSeatsNonneg
  infer_instance

/-- Every flight's seat count is non-negative and representable as an i32
(the upper half of the i32 range a Rust i32 field always satisfies). -/
def allSeatsInI32 (c : FlightController) : Prop :=
  ∀ p ∈ c.flights, 0 ≤ p.2.seats_available ∧ p.2.seats_available < 2147483648

instance (c : FlightController) : Decidable (allSeatsInI32 c) := by
  unfold allSeatsInI32
  infer_instance

/-- A sequence of reserve_seats calls, applied left to right. -/
def applyReserves (c : FlightController) : List (Int × Int) → FlightController
  | [] => c
  | (fid, seats) :: t => applyReserves (reserve_seats c fid seats).1 t

/-- The second sample flight, as registered by init_flight_controller. -/
def nyFlight1 : Flight :=
  { flight_id := 1, source := ascii "New York", destination := ascii "London",
    departure_time := 1, airfare := 1140457472, seats_available := 100 }

/-- A concrete value exercising every Value shape at once. -/
def sampleValue : Value :=
  .vmap (.econs (ascii "id") (.int32 (-7))
    (.econs (ascii "flag") (.vbool true)
      (.econs (ascii "name") (.vstring (ascii "Onono"))
        (.econs (ascii "fare") (.vfloat 1128792064)
          (.econs (ascii "seq")
            (.varray (.cons (.int32 2147483647)
              (.cons (.vstring (ascii "x"))
                (.cons (.vmap (.econs (ascii "k") (.int32 0) .enil)) .nil))))
            .enil)))))

/-- Is the Value a String?  (the shape into_string accepts). -/
def isStringV : Value → Bool
  | .vstring _ => true
  | _ => false

/-! ## Concrete wire-level scenario used by the server-claim witnesses:
a ReserveSeats request (action 3, flight 1, 1 seat) with request id 7,
under each invocation semantic. -/

def envALO : EntryList :=
  .econs (ascii "request_id") (.vstring (ascii "7"))
    (.econs (ascii "invocation_semantic") (.vstring (ascii "at-least-once"))
      (.econs (ascii "action") (.vstring (ascii "3"))
        (.econs (ascii "flight_id") (.vstring (ascii "1"))
          (.econs (ascii "seats") (.vstring (ascii "1")) .enil))))

def envAMO : EntryList :=
  .econs (ascii "request_id") (.vstring (ascii "7"))
    (.econs (ascii "invocation_semantic") (.vstring (ascii "at-most-once"))
      (.econs (ascii "action") (.vstring (ascii "3"))
        (.econs (ascii "flight_id") (.vstring (ascii "1"))
          (.econs (ascii "seats") (.vstring (ascii "1")) .enil))))

def dataALO : List Nat :=
  serializeValue .little (.vmap envALO)

def dataAMO : List Nat :=
  serializeValue .little (.vmap envAMO)

/-- The serialized success response for request id 7. -/
def respOk7 : List Nat :=
  serializeStrMap [(ascii "status", ascii "200"), (ascii "request_id", ascii "7")]

/-- The sample controller after the one reservation of request 7. -/
def cAfter1 : FlightController :=
  (reserve_seats (clean_expired_monitors init_flight_controller 0) 1 1).1

/-- Server state after request 7 was processed once at time 0. -/
def sAfterFirst : ServerState :=
  { controller := cAfter1, cache := cacheInsert [] (ascii "7") ⟨0, respOk7⟩ }

/-! ## Claim C9: placement of the cache store relative to the loss draw -/

/-- Index of the first event satisfying a predicate. -/
def firstIdx (p : SEvent → Bool) : List SEvent → Option Nat
  | [] => none
  | e :: t => if p e then some 0 else (firstIdx p t).map (· + 1)

def isCacheStore : SEvent → Bool
  | .cacheStore _ _ => true
  | _ => false

def isDraw : SEvent → Bool
  | .draw _ => true
  | _ => false

/-- The first p-event occurs strictly before the first q-event. -/
def precedes (p q : SEvent → Bool) (evs : List SEvent) : Bool :=
  match firstIdx p evs, firstIdx q evs with
  | some i, some j => decide (i < j)
  | _, _ => false

/-! ## Claim C6: envelopes with missing fields or unparsable numerics -/

/-- A well-formed at-least-once ReserveSeats envelope missing the required
flight_id and seats fields. -/
def envMissingField : EntryList :=
  .econs (ascii "request_id") (.vstring (ascii "8"))
    (.econs (ascii "invocation_semantic") (.vstring (ascii "at-least-once"))
      (.econs (ascii "action") (.vstring (ascii "3")) .enil))

def dataMissingField : List Nat :=
  serializeValue .little (.vmap envMissingField)

/-- A well-formed envelope whose numeric subfield flight_id is unparsable. -/
def envBadNumber : EntryList :=
  .econs (ascii "request_id") (.vstring (ascii "9"))
    (.econs (ascii "invocation_semantic") (.vstring (ascii "at-least-once"))
      (.econs (ascii "action") (.vstring (ascii "3"))
        (.econs (ascii "flight_id") (.vstring (ascii "abc"))
          (.econs (ascii "seats") (.vstring (ascii "1")) .enil))))

def dataBadNumber : List Nat :=
  serializeValue .little (.vmap envBadNumber)

/-! ## Claim C5: reservation fan-out and monitor expiry -/

/-- No flight id occurs twice in the monitor registry (a HashMap
invariant: the registry is only built through monsInsert). -/
def monKeysDistinct : List (Int × List MonitoringClient) → Bool
  | [] => true
  | p :: t => !(t.any (fun q => q.1 = p.1)) && monKeysDistinct t

/-- The subscriptions of a flight that are live at the given instant
(expiration strictly in the future). -/
def liveMonitors (c : FlightController) (now : Nat) (fid : Int) : List MonitoringClient :=
  ((monsGet c.monitoring_clients fid).getD []).filter (fun cl => now < cl.expiration_time)

/-- A controller with flight 1 and two subscriptions for it: one live at
instant 5 (expires at 10) and one already expired (expired at 3). -/
def cMon : FlightController :=
  { flights := [(1, nyFlight1)],
    monitoring_clients := [(1, [⟨7, 10⟩, ⟨8, 3⟩])] }

/-! ## Theorems -/
theorem i32ToNat_lt (v : Int) : i32ToNat v < 4294967296 := by
  unfold i32ToNat
  omega

theorem i32OfNat_i32ToNat (v : Int) (h1 : -2147483648 ≤ v) (h2 : v < 2147483648) :
    i32OfNat (i32ToNat v) = v := by
  unfold i32OfNat i32ToNat
  split <;> omega

theorem i32ToNat_natCast (m : Nat) (h : m < 2147483648) : i32ToNat (m : Int) = m := by
  unfold i32ToNat
  omega

theorem usizeOfI32_natCast (m : Nat) (h : m < 2147483648) : usizeOfI32 (m : Int) = m := by
  unfold usizeOfI32
  omega

theorem readInt32_bytesLE (n : Nat) (r : List Nat) (h : n < 4294967296) :
    readInt32 .little (bytesLE4 n ++ r) = .ok (i32OfNat n, r) := by
  simp only [bytesLE4, List.cons_append, List.nil_append, readInt32, natOf4]
  have e : n % 256 + 256 * (n / 256 % 256) + 65536 * (n / 65536 % 256) +
      16777216 * (n / 16777216 % 256) = n := by omega
  rw [e]

theorem readInt32_bytesBE (n : Nat) (r : List Nat) (h : n < 4294967296) :
    readInt32 .big (bytesBE4 n ++ r) = .ok (i32OfNat n, r) := by
  simp only [bytesBE4, List.cons_append, List.nil_append, readInt32, natOf4]
  have e : n % 256 + 256 * (n / 256 % 256) + 65536 * (n / 65536 % 256) +
      16777216 * (n / 16777216 % 256) = n := by omega
  rw [e]

theorem readInt32_enc4 (bo : ByteOrder) (n : Nat) (r : List Nat) (h : n < 4294967296) :
    readInt32 bo (enc4 bo n ++ r) = .ok (i32OfNat n, r) := by
  cases bo
  · exact readInt32_bytesBE n r h
  · exact readInt32_bytesLE n r h

theorem readInt32_encInt32 (bo : ByteOrder) (v : Int) (r : List Nat)
    (h1 : -2147483648 ≤ v) (h2 : v < 2147483648) :
    readInt32 bo (encInt32 bo v ++ r) = .ok (v, r) := by
  unfold encInt32
  rw [readInt32_enc4 bo _ r (i32ToNat_lt v), i32OfNat_i32ToNat v h1 h2]

theorem readInt32_len (bo : ByteOrder) (m : Nat) (r : List Nat) (h : m < 2147483648) :
    readInt32 bo (encInt32 bo (m : Int) ++ r) = .ok ((m : Int), r) := by
  exact readInt32_encInt32 bo _ r (by omega) (by omega)

theorem readBytes_exact (s r : List Nat) : readBytes s.length (s ++ r) = .ok (s, r) := by
  induction s with
  | nil => simp [readBytes]
  | cons b t ih => simp [readBytes, ih]

theorem enc4_length (bo : ByteOrder) (n : Nat) : (enc4 bo n).length = 4 := by
  cases bo <;> simp [enc4, bytesLE4, bytesBE4]

theorem deserializeStr_spec (bo : ByteOrder) (s r : List Nat)
    (hlen : s.length < 2147483648) (hutf : validUtf8 s = true) :
    deserializeStr bo (serializeInt32 bo (s.length : Int) ++ (s ++ r)) = .ok (s, r) := by
  unfold deserializeStr serializeInt32
  have hd : ((1 :: encInt32 bo (s.length : Int)) ++ (s ++ r)).drop 1 =
      encInt32 bo (s.length : Int) ++ (s ++ r) := by
    simp
  rw [hd, readInt32_len bo s.length (s ++ r) hlen]
  simp only [usizeOfI32_natCast s.length hlen, readBytes_exact, hutf]
  rfl

theorem eappend_enilR : (acc : EntryList) → eappend acc .enil = acc
  | .enil => rfl
  | .econs k v t => by simp only [eappend, eappend_enilR t]

theorem entInsert_fresh : (acc : EntryList) → ∀ (k : List Nat) (v : Value),
    entHasKey acc k = false → entInsert k v acc = eappend acc (.econs k v .enil)
  | .enil => by
    intro k v _
    rfl
  | .econs k' v' t => by
    intro k v h
    simp only [entHasKey, Bool.or_eq_false_iff, decide_eq_false_iff_not] at h
    simp only [entInsert, eappend, if_neg h.1, entInsert_fresh t k v h.2]

theorem eappend_econs : (acc : EntryList) → ∀ (k : List Nat) (v : Value) (t : EntryList),
    eappend (eappend acc (.econs k v .enil)) t = eappend acc (.econs k v t)
  | .enil => by
    intro k v t
    rfl
  | .econs k' v' u => by
    intro k v t
    simp only [eappend, eappend_econs u k v t]

theorem entHasKey_eappend : (a : EntryList) → ∀ (b : EntryList) (k : List Nat),
    entHasKey (eappend a b) k = (entHasKey a k || entHasKey b k)
  | .enil => by
    intro b k
    simp [eappend, entHasKey]
  | .econs k' v' t => by
    intro b k
    simp [eappend, entHasKey, entHasKey_eappend t b k, Bool.or_assoc]

theorem needEntries_pos (es : EntryList) : 1 ≤ needEntries es := by
  cases es <;> simp only [needEntries] <;> omega

theorem needElems_pos (xs : ValueList) : 1 ≤ needElems xs := by
  cases xs <;> simp only [needElems] <;> omega

theorem rtString (bo : ByteOrder) (s X : List Nat) (f : Nat) (hf : 1 ≤ f)
    (hu : validUtf8 s = true) (hl : s.length < 2147483648) :
    deserializeNextF bo f (serializeStr bo s ++ X) = .ok (.vstring s, X) := by
  match f, hf with
  | f' + 1, _ =>
    have h1 := deserializeStr_spec bo s X hl hu
    simp only [serializeStr, List.cons_append, List.append_assoc]
    simp [deserializeNextF, readU8]
    rw [h1]

mutual
theorem rtV : (v : Value) → ∀ (bo : ByteOrder) (r : List Nat) (fuel : Nat),
    needV v ≤ fuel → wfValue v = true →
    deserializeNextF bo fuel (serializeValue bo v ++ r) = .ok (v, r)
  | .int32 v => by
    intro bo r fuel hf hwf
    match fuel, hf with
    | f + 1, _ =>
      simp only [wfValue, Bool.and_eq_true, decide_eq_true_eq] at hwf
      have h1 := readInt32_encInt32 bo v r hwf.1 hwf.2
      simp [deserializeNextF, readU8, serializeValue, serializeInt32, h1]
  | .vbool b => by
    intro bo r fuel hf hwf
    match fuel, hf with
    | f + 1, _ =>
      cases b <;> simp [serializeValue, deserializeNextF, readU8]
  | .vstring s => by
    intro bo r fuel hf hwf
    simp only [wfValue, Bool.and_eq_true, decide_eq_true_eq] at hwf
    simp only [serializeValue]
    exact rtString bo s r fuel (by simp only [needV] at hf; omega) hwf.1 hwf.2
  | .vfloat bits => by
    intro bo r fuel hf hwf
    match fuel, hf with
    | f + 1, _ =>
      simp only [wfValue, decide_eq_true_eq] at hwf
      cases bo <;>
        simp only [serializeValue, enc4, bytesLE4, bytesBE4, List.cons_append, List.nil_append,
          deserializeNextF, readU8] <;>
        norm_num [natOf4] <;>
        omega
  | .varray xs => by
    intro bo r fuel hf hwf
    match fuel, hf with
    | f + 1, hf =>
      simp only [wfValue, Bool.and_eq_true, decide_eq_true_eq] at hwf
      simp only [needV] at hf
      have h1 := readInt32_len bo (vlLength xs) (serializeElems bo xs ++ r) hwf.1
      have h2 := usizeOfI32_natCast (vlLength xs) hwf.1
      have h3 := rtElems xs bo r f (by omega) hwf.2
      simp [deserializeNextF, readU8, serializeValue, serializeInt32, h1, h2, h3]
  | .vmap es => by
    intro bo r fuel hf hwf
    match fuel, hf with
    | f + 1, hf =>
      simp only [wfValue, Bool.and_eq_true, decide_eq_true_eq] at hwf
      obtain ⟨⟨hlen, hkd⟩, hwfe⟩ := hwf
      simp only [needV] at hf
      have h1 := readInt32_len bo (elLength es) (serializeEntries bo es ++ r) hlen
      have h2 := usizeOfI32_natCast (elLength es) hlen
      have h3 := rtEntries es bo r f .enil (by omega) hwfe hkd (by intro k _; rfl)
      simp only [eappend] at h3
      simp [deserializeNextF, readU8, serializeValue, serializeInt32, h1, h2, h3]
theorem rtElems : (xs : ValueList) → ∀ (bo : ByteOrder) (r : List Nat) (fuel : Nat),
    needElems xs ≤ fuel → wfElems xs = true →
    deserializeElemsF bo fuel (vlLength xs) (serializeElems bo xs ++ r) = .ok (xs, r)
  | .nil => by
    intro bo r fuel hf hwf
    match fuel, hf with
    | f + 1, _ => simp [vlLength, serializeElems, deserializeElemsF]
  | .cons v t => by
    intro bo r fuel hf hwf
    match fuel, hf with
    | f + 1, hf =>
      simp only [wfElems, Bool.and_eq_true] at hwf
      simp only [needElems] at hf
      have h1 := rtV v bo (serializeElems bo t ++ r) f (by omega) hwf.1
      have h2 := rtElems t bo r f (by omega) hwf.2
      simp [vlLength, serializeElems, deserializeElemsF, h1, h2]
theorem rtEntries : (es : EntryList) → ∀ (bo : ByteOrder) (r : List Nat) (fuel : Nat) (acc : EntryList),
    needEntries es ≤ fuel → wfEntries es = true → keysDistinct es = true →
    (∀ k, entHasKey es k = true → entHasKey acc k = false) →
    deserializeEntriesF bo fuel (elLength es) acc (serializeEntries bo es ++ r) = .ok (eappend acc es, r)
  | .enil => by
    intro bo r fuel acc hf hwf hkd hfresh
    match fuel, hf with
    | f + 1, _ => simp [elLength, serializeEntries, deserializeEntriesF, eappend_enilR]
  | .econs k v t => by
    intro bo r fuel acc hf hwf hkd hfresh
    match fuel, hf with
    | f + 1, hf =>
      simp only [wfEntries, Bool.and_eq_true, decide_eq_true_eq] at hwf
      obtain ⟨⟨⟨hku, hkl⟩, hv⟩, ht⟩ := hwf
      simp only [keysDistinct, Bool.and_eq_true, Bool.not_eq_true'] at hkd
      simp only [needEntries] at hf
      have het := needEntries_pos t
      have hkstep := rtString bo k (serializeValue bo v ++ (serializeEntries bo t ++ r)) f
        (by omega) hku hkl
      have hvstep := rtV v bo (serializeEntries bo t ++ r) f (by omega) hv
      have hkacc : entHasKey acc k = false := hfresh k (by simp [entHasKey])
      have htstep := rtEntries t bo r f (eappend acc (.econs k v .enil)) (by omega) ht hkd.2 ?fresh
      case fresh =>
        intro k' hk'
        rw [entHasKey_eappend]
        have h1 : entHasKey acc k' = false := hfresh k' (by simp [entHasKey, hk'])
        have h2 : entHasKey (EntryList.econs k v .enil) k' = false := by
          have hkk' : k ≠ k' := by
            intro hc
            rw [hc] at hkd
            simp [hk'] at hkd
          simp [entHasKey, hkk']
        simp [h1, h2]
      simp [elLength, serializeEntries, deserializeEntriesF, hkstep, intoString, hvstep,
        entInsert_fresh acc k v hkacc, htstep, eappend_econs]
end

theorem serializeValue_length_pos : (v : Value) → ∀ (bo : ByteOrder),
    1 ≤ (serializeValue bo v).length
  | .int32 v => by intro bo; simp [serializeValue, serializeInt32]
  | .vbool b => by intro bo; simp [serializeValue]
  | .vstring s => by intro bo; simp [serializeValue, serializeStr]
  | .vfloat bits => by intro bo; simp [serializeValue]
  | .varray xs => by intro bo; simp [serializeValue]
  | .vmap es => by intro bo; simp [serializeValue]

theorem serializeInt32_length (bo : ByteOrder) (v : Int) :
    (serializeInt32 bo v).length = 5 := by
  simp [serializeInt32, encInt32, enc4_length]

mutual
theorem needV_le : (v : Value) → ∀ (bo : ByteOrder), needV v ≤ (serializeValue bo v).length
  | .int32 v => by
    intro bo
    simp [needV, serializeValue, serializeInt32]
  | .vbool b => by
    intro bo
    simp [needV, serializeValue]
  | .vstring s => by
    intro bo
    simp [needV, serializeValue, serializeStr]
  | .vfloat bits => by
    intro bo
    simp [needV, serializeValue]
  | .varray xs => by
    intro bo
    have h1 := needElems_le xs bo
    simp only [needV, serializeValue, List.length_cons, List.length_append,
      serializeInt32_length]
    omega
  | .vmap es => by
    intro bo
    have h1 := needEntries_le es bo
    simp only [needV, serializeValue, List.length_cons, List.length_append,
      serializeInt32_length]
    omega
theorem needElems_le : (xs : ValueList) → ∀ (bo : ByteOrder),
    needElems xs ≤ (serializeElems bo xs).length + 1
  | .nil => by
    intro bo
    simp [needElems, serializeElems]
  | .cons v t => by
    intro bo
    have h1 := needV_le v bo
    have h2 := needElems_le t bo
    have h3 := serializeValue_length_pos v bo
    simp only [needElems, serializeElems, List.length_append]
    omega
theorem needEntries_le : (es : EntryList) → ∀ (bo : ByteOrder),
    needEntries es ≤ (serializeEntries bo es).length + 1
  | .enil => by
    intro bo
    simp [needEntries, serializeEntries]
  | .econs k v t => by
    intro bo
    have h1 := needV_le v bo
    have h2 := needEntries_le t bo
    have h3 := serializeValue_length_pos v bo
    simp only [needEntries, serializeEntries, List.length_append]
    omega
end

/-- The round-trip law at the wrapper level: deserializing the bytes produced
by serializing any well-formed Value yields that Value back, leaving any
trailing bytes untouched. -/
theorem deserializeNext_serializeValue (bo : ByteOrder) (v : Value) (r : List Nat)
    (h : wfValue v = true) :
    deserializeNext bo (serializeValue bo v ++ r) = .ok (v, r) := by
  unfold deserializeNext
  refine rtV v bo r _ ?_ h
  have h1 := needV_le v bo
  have h2 : (serializeValue bo v ++ r).length = (serializeValue bo v).length + r.length := by
    simp
  omega

theorem i32Wrap_eq_self (v : Int) (h1 : -2147483648 ≤ v) (h2 : v < 2147483648) :
    i32Wrap v = v := by
  unfold i32Wrap i32OfNat i32ToNat
  split <;> omega

theorem i32Wrap_range (v : Int) :
    -2147483648 ≤ i32Wrap v ∧ i32Wrap v < 2147483648 := by
  unfold i32Wrap i32OfNat i32ToNat
  split <;> omega

theorem flightsGet_subSeats_self (l : List (Int × Flight)) (fid seats : Int) (f : Flight)
    (h : flightsGet l fid = some f) :
    flightsGet (flightsSubSeats l fid seats) fid =
      some { f with seats_available := i32Wrap (f.seats_available - seats) } := by
  induction l with
  | nil => simp [flightsGet] at h
  | cons p t ih =>
    obtain ⟨k, g⟩ := p
    by_cases hk : k = fid
    · subst hk
      simp [flightsGet] at h
      subst h
      simp [flightsSubSeats, flightsGet]
    · simp [flightsGet, hk] at h
      simp [flightsSubSeats, hk, flightsGet, ih h]

theorem flightsGet_subSeats_other (l : List (Int × Flight)) (fid seats fid' : Int)
    (h : fid' ≠ fid) :
    flightsGet (flightsSubSeats l fid seats) fid' = flightsGet l fid' := by
  induction l with
  | nil => simp [flightsSubSeats]
  | cons p t ih =>
    obtain ⟨k, g⟩ := p
    by_cases hk : k = fid
    · subst hk
      have hne : ¬ (k = fid') := fun hh => h hh.symm
      simp [flightsSubSeats, flightsGet, hne]
    · simp [flightsSubSeats, hk, flightsGet, ih]

theorem subSeats_inI32 (l : List (Int × Flight)) (fid seats : Int) (f : Flight)
    (hget : flightsGet l fid = some f) (hok : seats ≤ f.seats_available)
    (hpos : 0 ≤ seats)
    (hnn : ∀ p ∈ l, 0 ≤ p.2.seats_available ∧ p.2.seats_available < 2147483648) :
    ∀ p ∈ flightsSubSeats l fid seats,
      0 ≤ p.2.seats_available ∧ p.2.seats_available < 2147483648 := by
  induction l with
  | nil => simp [flightsSubSeats]
  | cons q t ih =>
    obtain ⟨k, g⟩ := q
    by_cases hk : k = fid
    · subst hk
      simp [flightsGet] at hget
      subst hget
      have hr := hnn (k, g) (by simp)
      simp only at hr
      intro p hp
      simp [flightsSubSeats] at hp
      rcases hp with hp | hp
      · subst hp
        have hw : i32Wrap (g.seats_available - seats) = g.seats_available - seats :=
          i32Wrap_eq_self _ (by omega) (by omega)
        simp [hw]
        omega
      · exact hnn p (by simp [hp])
    · simp [flightsGet, hk] at hget
      intro p hp
      simp [flightsSubSeats, hk] at hp
      rcases hp with hp | hp
      · subst hp
        exact hnn (k, g) (by simp)
      · exact ih hget (fun q hq => hnn q (by simp [hq])) p hp

theorem reserve_preserves_inI32 (c : FlightController) (fid seats : Int)
    (hpos : 0 ≤ seats) (h : allSeatsInI32 c) :
    allSeatsInI32 (reserve_seats c fid seats).1 := by
  unfold reserve_seats
  cases hget : flightsGet c.flights fid with
  | none => exact h
  | some f =>
    by_cases hok : seats ≤ f.seats_available
    · simp only [hok, if_pos]
      exact subSeats_inI32 c.flights fid seats f hget hok hpos h
    · simp only [hok, if_neg]
      exact h

theorem applyReserves_inI32 (ops : List (Int × Int)) :
    ∀ (c : FlightController), (∀ op ∈ ops, 0 ≤ op.2) → allSeatsInI32 c →
      allSeatsInI32 (applyReserves c ops) := by
  induction ops with
  | nil =>
    intro c _ h
    exact h
  | cons op t ih =>
    intro c hpos h
    exact ih _ (fun q hq => hpos q (by simp [hq]))
      (reserve_preserves_inI32 c op.1 op.2 (hpos op (by simp)) h)

set_option maxRecDepth 4000 in
/-- C1 counterexample: the claim as stated is false of the code.  The wire
accepts seats = -2147483640 (parse::<i32> succeeds), the guard
100 >= -2147483640 passes on the 100-seat flight 1, and the i32 subtraction
100 - (-2147483640) overflows: the stored count is the wrapped value
-2147483556 — negative, and not the claimed exact decrease by the requested
amount (a debug build aborts at this same input instead of succeeding). -/
theorem claim_C1_counterexample :
    parseI32 (ascii "-2147483640") = some (-2147483640) ∧
    (reserve_seats init_flight_controller 1 (-2147483640)).2 = .ok () ∧
    flightsGet (reserve_seats init_flight_controller 1 (-2147483640)).1.flights 1 =
      some { nyFlight1 with seats_available := -2147483556 } ∧
    ¬ allSeatsNonneg (reserve_seats init_flight_controller 1 (-2147483640)).1 ∧
    nyFlight1.seats_available - (-2147483640) ≠ (-2147483556 : Int) := by
  refine ⟨by decide, by decide, by decide, by decide, by decide⟩

/-- C1 as amended.  The decrement happens only when seats_available is at
least the requested seats, and on failure (insufficient seats or flight not
found) the controller is unchanged with the matching error.  On success the
stored count is the two's-complement wrap of the exact difference, which
equals the exact difference — so the count decreases by exactly the
requested amount and stays non-negative — whenever that difference fits in
i32 (other flights untouched).  Consequently, for every sequence of
reserve_seats operations with non-negative seats arguments (where no
successful decrement can overflow), seat counts that start non-negative and
i32-representable never go negative. -/
theorem claim_C1 (c : FlightController) (fid seats : Int) :
    (∀ f, flightsGet c.flights fid = some f → seats ≤ f.seats_available →
      (reserve_seats c fid seats).2 = .ok () ∧
      flightsGet (reserve_seats c fid seats).1.flights fid =
        some { f with seats_available := i32Wrap (f.seats_available - seats) } ∧
      (f.seats_available - seats < 2147483648 →
        i32Wrap (f.seats_available - seats) = f.seats_available - seats ∧
        0 ≤ f.seats_available - seats) ∧
      (∀ fid', fid' ≠ fid →
        flightsGet (reserve_seats c fid seats).1.flights fid' = flightsGet c.flights fid')) ∧
    (∀ f, flightsGet c.flights fid = some f → f.seats_available < seats →
      reserve_seats c fid seats = (c, .error (ascii "Not enough seats available"))) ∧
    (flightsGet c.flights fid = none →
      reserve_seats c fid seats = (c, .error (ascii "Flight not found"))) ∧
    (∀ ops : List (Int × Int), (∀ op ∈ ops, 0 ≤ op.2) → allSeatsInI32 c →
      allSeatsInI32 (applyReserves c ops) ∧ allSeatsNonneg (applyReserves c ops)) := by
  refine ⟨?_, ?_, ?_, ?_⟩
  · intro f hget hok
    unfold reserve_seats
    rw [hget]
    simp only [if_pos hok]
    refine ⟨by trivial, ?_, ?_, ?_⟩
    · exact flightsGet_subSeats_self c.flights fid seats f hget
    · intro hfit
      exact ⟨i32Wrap_eq_self _ (by omega) hfit, by omega⟩
    · intro fid' hne
      exact flightsGet_subSeats_other c.flights fid seats fid' hne
  · intro f hget hlt
    unfold reserve_seats
    rw [hget]
    simp only [if_neg (by omega : ¬ seats ≤ f.seats_available)]
  · intro hget
    unfold reserve_seats
    rw [hget]
  · intro ops hpos h
    have hi := applyReserves_inI32 ops c hpos h
    exact ⟨hi, fun p hp => (hi p hp).1⟩

/-- C1 witness: the scenario flights, reserving 2 of 100 seats on flight 1
succeeds, the difference fits i32 and the count decreases by exactly 2 to
98; reserving 999 fails and leaves the controller unchanged; a mixed
sequence of non-negative requests keeps every seat count non-negative. -/
theorem claim_C1_witness :
    (reserve_seats init_flight_controller 1 2).2 = .ok () ∧
    flightsGet (reserve_seats init_flight_controller 1 2).1.flights 1 =
      some { nyFlight1 with seats_available := i32Wrap (nyFlight1.seats_available - 2) } ∧
    i32Wrap (nyFlight1.seats_available - 2) = nyFlight1.seats_available - 2 ∧
    reserve_seats init_flight_controller 1 999 =
      (init_flight_controller, .error (ascii "Not enough seats available")) ∧
    allSeatsNonneg (applyReserves init_flight_controller [(1, 2), (1, 999), (0, 50), (7, 3)]) := by
  refine ⟨?_, ?_, ?_, ?_, ?_⟩
  · exact ((claim_C1 init_flight_controller 1 2).1 nyFlight1 (by decide) (by decide)).1
  · exact ((claim_C1 init_flight_controller 1 2).1 nyFlight1 (by decide) (by decide)).2.1
  · exact (((claim_C1 init_flight_controller 1 2).1 nyFlight1 (by decide) (by decide)).2.2.1
      (by decide)).1
  · exact (claim_C1 init_flight_controller 1 999).2.1 nyFlight1 (by decide) (by decide)
  · exact ((claim_C1 init_flight_controller 1 2).2.2.2 [(1, 2), (1, 999), (0, 50), (7, 3)]
      (by decide) (by decide)).2

/-! ## Claims C4 and C8: the codec laws -/

/-- C4.  For every supported Value shape that satisfies the Rust-side
invariants (i32 fields in range, valid-UTF-8 strings, lengths below 2^31,
distinct map keys), decoding the bytes produced by encoding the value
reproduces it exactly: scalars are recovered bit-for-bit, arrays preserve
element order, and maps preserve exactly the set of key/value pairs (the
model's entry lists return in encoding order, which is one of the
unspecified orders a HashMap may produce; pair-set preservation follows
from the equality). -/
theorem claim_C4 (bo : ByteOrder) (v : Value) (h : wfValue v = true) :
    deserializeNext bo (serializeValue bo v) = .ok (v, []) := by
  have h1 := deserializeNext_serializeValue bo v [] h
  rw [List.append_nil] at h1
  exact h1

set_option maxRecDepth 100000 in
/-- C4 witness: the round trip at a concrete nested value, in both byte
orders. -/
theorem claim_C4_witness :
    wfValue sampleValue = true ∧
    deserializeNext .little (serializeValue .little sampleValue) = .ok (sampleValue, []) ∧
    deserializeNext .big (serializeValue .big sampleValue) = .ok (sampleValue, []) :=
  ⟨by decide, claim_C4 .little sampleValue (by decide), claim_C4 .big sampleValue (by decide)⟩

theorem intoString_notString : (v : Value) → isStringV v = false →
    intoString v = .error .invalidData
  | .int32 _, _ => rfl
  | .vbool _, _ => rfl
  | .vstring _, h => by simp [isStringV] at h
  | .vfloat _, _ => rfl
  | .varray _, _ => rfl
  | .vmap _, _ => rfl

/-- C8.  Decoding fails with InvalidData (and produces no Value) whenever
the buffer's type tag byte is outside 1..=6 (read_type), and whenever a map
entry's key deserializes to any Value variant other than String
(into_string applied to the key in the deserialize_map loop). -/
theorem claim_C8 :
    (∀ (bo : ByteOrder) (b : Nat) (rest : List Nat), ¬ (1 ≤ b ∧ b ≤ 6) →
      deserializeNext bo (b :: rest) = .error .invalidData) ∧
    (∀ (bo : ByteOrder) (fuel n : Nat) (acc : EntryList) (l l' : List Nat) (v : Value),
      deserializeNextF bo fuel l = .ok (v, l') → isStringV v = false →
      deserializeEntriesF bo (fuel + 1) (n + 1) acc l = .error .invalidData) := by
  constructor
  · intro bo b rest h
    have h1 : b ≠ 1 := by omega
    have h2 : b ≠ 2 := by omega
    have h3 : b ≠ 3 := by omega
    have h4 : b ≠ 4 := by omega
    have h5 : b ≠ 5 := by omega
    have h6 : b ≠ 6 := by omega
    have hl : 2 * (b :: rest).length + 2 = (2 * rest.length + 3) + 1 := by
      simp [List.length_cons]
      omega
    unfold deserializeNext
    rw [hl]
    simp [deserializeNextF, readU8, h1, h2, h3, h4, h5, h6]
  · intro bo fuel n acc l l' v hok hns
    simp [deserializeEntriesF, hok, intoString_notString v hns]

set_option maxRecDepth 100000 in
/-- C8 witness: tag byte 9 is rejected with InvalidData, and a map whose
first key is an Int32 (the serialized bytes of Int32 5) is rejected with
InvalidData. -/
theorem claim_C8_witness :
    deserializeNext .little [9, 1, 0] = .error .invalidData ∧
    deserializeEntriesF .little 9 1 .enil (serializeValue .little (.int32 5)) =
      .error .invalidData :=
  ⟨claim_C8.1 .little 9 [1, 0] (by decide),
   claim_C8.2 .little 8 0 .enil (serializeValue .little (.int32 5)) [] (.int32 5)
     (by decide) (by decide)⟩

/-! ## Server-step lemmas (claims C2, C3, C9, C10) -/

theorem cacheGet_insert_self (cache : List (List Nat × RequestInfo)) (id : List Nat)
    (info : RequestInfo) : cacheGet (cacheInsert cache id info) id = some info := by
  induction cache with
  | nil => simp [cacheInsert, cacheGet]
  | cons p t ih =>
    obtain ⟨k, i⟩ := p
    by_cases hk : k = id
    · simp [cacheInsert, cacheGet, hk]
    · simp [cacheInsert, cacheGet, hk, ih]

theorem serverStep_atLeastOnce (s : ServerState) (data : List Nat) (env : EntryList)
    (id rest : List Nat) (src now : Nat) (utc : Int) (lost : Bool)
    (resp : List Nat) (c' : FlightController) (pushes : List (Nat × List Nat))
    (hdec : deserializeNext .little data = .ok (.vmap env, rest))
    (hid : entGet env (ascii "request_id") = some (.vstring id))
    (hsem : entGet env (ascii "invocation_semantic") = some (.vstring (ascii "at-least-once")))
    (hdisp : server_handle_request data s.controller now src = .ok resp c' pushes) :
    serverStep s data src now utc lost =
      .next { controller := c', cache := cacheInsert s.cache id ⟨utc, resp⟩ }
        (pushes.map (fun p => SEvent.send p.1 p.2) ++
          [SEvent.draw lost, SEvent.cacheStore id resp] ++
          (if lost then [] else [SEvent.send src resp])) := by
  simp [serverStep, hdec, hid, hsem, hdisp]

theorem serverStep_atMostOnce_fresh (s : ServerState) (data : List Nat) (env : EntryList)
    (id rest : List Nat) (src now : Nat) (utc : Int) (lost : Bool)
    (resp : List Nat) (c' : FlightController) (pushes : List (Nat × List Nat))
    (hdec : deserializeNext .little data = .ok (.vmap env, rest))
    (hid : entGet env (ascii "request_id") = some (.vstring id))
    (hsem : entGet env (ascii "invocation_semantic") = some (.vstring (ascii "at-most-once")))
    (hfresh : cacheGet s.cache id = none)
    (hdisp : server_handle_request data s.controller now src = .ok resp c' pushes) :
    serverStep s data src now utc lost =
      .next { controller := c', cache := cacheInsert s.cache id ⟨utc, resp⟩ }
        (pushes.map (fun p => SEvent.send p.1 p.2) ++
          [SEvent.draw lost, SEvent.cacheStore id resp] ++
          (if lost then [] else [SEvent.send src resp])) := by
  have hne : ¬ (ascii "at-most-once" = ascii "at-least-once") := by decide
  simp [serverStep, hdec, hid, hsem, hne, hfresh, hdisp]

theorem serverStep_atMostOnce_cached (s : ServerState) (data : List Nat) (env : EntryList)
    (id rest : List Nat) (src now : Nat) (utc : Int) (lost : Bool) (info : RequestInfo)
    (hdec : deserializeNext .little data = .ok (.vmap env, rest))
    (hid : entGet env (ascii "request_id") = some (.vstring id))
    (hsem : entGet env (ascii "invocation_semantic") = some (.vstring (ascii "at-most-once")))
    (hcached : cacheGet s.cache id = some info) :
    serverStep s data src now utc lost = .next s [SEvent.send src info.response] := by
  have hne : ¬ (ascii "at-most-once" = ascii "at-least-once") := by decide
  simp [serverStep, hdec, hid, hsem, hne, hcached]

theorem iterServer_cached (data : List Nat) (env : EntryList) (id rest : List Nat)
    (info : RequestInfo) (s : ServerState)
    (hdec : deserializeNext .little data = .ok (.vmap env, rest))
    (hid : entGet env (ascii "request_id") = some (.vstring id))
    (hsem : entGet env (ascii "invocation_semantic") = some (.vstring (ascii "at-most-once")))
    (hcached : cacheGet s.cache id = some info) :
    ∀ (n : Nat) (src now : Nat) (utc : Int) (lost : Bool),
      iterServer data src now utc lost n s =
        some (s, List.replicate n [SEvent.send src info.response]) := by
  intro n
  induction n with
  | zero =>
    intro src now utc lost
    simp [iterServer]
  | succ n ih =>
    intro src now utc lost
    rw [List.replicate_succ]
    simp only [iterServer,
      serverStep_atMostOnce_cached s data env id rest src now utc lost info hdec hid hsem hcached,
      ih src now utc lost]

set_option maxRecDepth 1000000 in
/-- C2.  Under at-most-once, a fresh request id is processed once (the one
engine invocation, whose result is stored under the id before the
send-or-drop decision), and every later datagram with that id is answered
with the exact stored bytes while leaving the whole server state — cache
and engine — unchanged, for any number of replays, any arrival time and
any loss draw: byte-identical responses, engine state changed exactly
once. -/
theorem claim_C2 (s : ServerState) (data : List Nat) (env : EntryList)
    (id rest : List Nat) (src now : Nat) (utc : Int) (lost : Bool)
    (resp : List Nat) (c' : FlightController) (pushes : List (Nat × List Nat))
    (hdec : deserializeNext .little data = .ok (.vmap env, rest))
    (hid : entGet env (ascii "request_id") = some (.vstring id))
    (hsem : entGet env (ascii "invocation_semantic") = some (.vstring (ascii "at-most-once")))
    (hfresh : cacheGet s.cache id = none)
    (hdisp : server_handle_request data s.controller now src = .ok resp c' pushes) :
    serverStep s data src now utc lost =
      .next { controller := c', cache := cacheInsert s.cache id ⟨utc, resp⟩ }
        (pushes.map (fun p => SEvent.send p.1 p.2) ++
          [SEvent.draw lost, SEvent.cacheStore id resp] ++
          (if lost then [] else [SEvent.send src resp])) ∧
    cacheGet (cacheInsert s.cache id ⟨utc, resp⟩) id = some ⟨utc, resp⟩ ∧
    (∀ (n : Nat) (src' now' : Nat) (utc' : Int) (lost' : Bool),
      iterServer data src' now' utc' lost' n
          { controller := c', cache := cacheInsert s.cache id ⟨utc, resp⟩ } =
        some ({ controller := c', cache := cacheInsert s.cache id ⟨utc, resp⟩ },
          List.replicate n [SEvent.send src' resp])) := by
  refine ⟨?_, ?_, ?_⟩
  · exact serverStep_atMostOnce_fresh s data env id rest src now utc lost resp c' pushes
      hdec hid hsem hfresh hdisp
  · exact cacheGet_insert_self s.cache id ⟨utc, resp⟩
  · intro n src' now' utc' lost'
    exact iterServer_cached data env id rest ⟨utc, resp⟩ _ hdec hid hsem
      (cacheGet_insert_self s.cache id ⟨utc, resp⟩) n src' now' utc' lost'

set_option maxRecDepth 1000000 in
/-- C2 witness: request 7 processed fresh at time 0, then replayed three
times from another arrival context; each replay returns the stored bytes
and the state never changes again. -/
theorem claim_C2_witness :
    serverStep { controller := init_flight_controller, cache := [] } dataAMO 99 0 0 false =
      .next sAfterFirst
        [SEvent.draw false, SEvent.cacheStore (ascii "7") respOk7, SEvent.send 99 respOk7] ∧
    cacheGet sAfterFirst.cache (ascii "7") = some ⟨0, respOk7⟩ ∧
    (∀ (n : Nat) (src' now' : Nat) (utc' : Int) (lost' : Bool),
      iterServer dataAMO src' now' utc' lost' n sAfterFirst =
        some (sAfterFirst, List.replicate n [SEvent.send src' respOk7])) :=
  claim_C2 { controller := init_flight_controller, cache := [] } dataAMO envAMO
    (ascii "7") [] 99 0 0 false respOk7 cAfter1 []
    (by decide) (by decide) (by decide) (by decide) (by decide)

set_option maxRecDepth 1000000 in
/-- C3.  Under at-least-once the datagram is dispatched to the engine on
every arrival, whatever the cache holds (the cache is written afterwards
but never consulted), so a replayed ReserveSeats is re-applied on each
arrival; concretely, two arrivals of the one-seat reservation for flight 1
(both with the same request id 7 and with both responses lost) leave
flight 1 with 98 of its 100 seats. -/
theorem claim_C3 (s : ServerState) (data : List Nat) (env : EntryList)
    (id rest : List Nat) (src now : Nat) (utc : Int) (lost : Bool)
    (resp : List Nat) (c' : FlightController) (pushes : List (Nat × List Nat))
    (hdec : deserializeNext .little data = .ok (.vmap env, rest))
    (hid : entGet env (ascii "request_id") = some (.vstring id))
    (hsem : entGet env (ascii "invocation_semantic") = some (.vstring (ascii "at-least-once")))
    (hdisp : server_handle_request data s.controller now src = .ok resp c' pushes) :
    serverStep s data src now utc lost =
      .next { controller := c', cache := cacheInsert s.cache id ⟨utc, resp⟩ }
        (pushes.map (fun p => SEvent.send p.1 p.2) ++
          [SEvent.draw lost, SEvent.cacheStore id resp] ++
          (if lost then [] else [SEvent.send src resp])) ∧
    (iterServer dataALO 99 0 0 true 2 { controller := init_flight_controller, cache := [] }).map
        (fun p => (flightsGet p.1.controller.flights 1).map Flight.seats_available) =
      some (some 98) := by
  constructor
  · exact serverStep_atLeastOnce s data env id rest src now utc lost resp c' pushes
      hdec hid hsem hdisp
  · decide

set_option maxRecDepth 1000000 in
/-- C3 witness: the first arrival of the at-least-once request 7, with the
response lost, still updates the engine and stores the response; and the
two-arrival instance from the theorem's second part. -/
theorem claim_C3_witness :
    serverStep { controller := init_flight_controller, cache := [] } dataALO 99 0 0 true =
      .next sAfterFirst [SEvent.draw true, SEvent.cacheStore (ascii "7") respOk7] ∧
    (iterServer dataALO 99 0 0 true 2 { controller := init_flight_controller, cache := [] }).map
        (fun p => (flightsGet p.1.controller.flights 1).map Flight.seats_available) =
      some (some 98) :=
  claim_C3 { controller := init_flight_controller, cache := [] } dataALO envALO
    (ascii "7") [] 99 0 0 true respOk7 cAfter1 []
    (by decide) (by decide) (by decide) (by decide)

set_option maxRecDepth 1000000 in
/-- C9 counterexample: processing the fresh at-least-once request 7 yields
the event trace draw, cacheStore, send — the random value is drawn (line
105 of server.rs) before the cache insert (line 109), so the store does not
precede the draw as the claim states. -/
theorem claim_C9_counterexample :
    serverStep { controller := init_flight_controller, cache := [] } dataALO 99 0 0 false =
      .next sAfterFirst
        [SEvent.draw false, SEvent.cacheStore (ascii "7") respOk7, SEvent.send 99 respOk7] ∧
    precedes isCacheStore isDraw
      [SEvent.draw false, SEvent.cacheStore (ascii "7") respOk7, SEvent.send 99 respOk7] = false := by
  constructor
  · decide
  · decide

/-- C9 as amended.  For every successfully handled request (at-least-once,
or at-most-once with a fresh id), the server draws the loss value first but
stores the serialized response in the cache under the request id before the
send-or-drop decision, unconditionally: for either draw outcome the cache
entry exists afterwards, and the response datagram is sent exactly when the
draw does not indicate loss. -/
theorem claim_C9 (s : ServerState) (data : List Nat) (env : EntryList)
    (id rest : List Nat) (src now : Nat) (utc : Int)
    (resp : List Nat) (c' : FlightController) (pushes : List (Nat × List Nat))
    (hdec : deserializeNext .little data = .ok (.vmap env, rest))
    (hid : entGet env (ascii "request_id") = some (.vstring id))
    (hsem : entGet env (ascii "invocation_semantic") = some (.vstring (ascii "at-least-once")) ∨
      (entGet env (ascii "invocation_semantic") = some (.vstring (ascii "at-most-once")) ∧
        cacheGet s.cache id = none))
    (hdisp : server_handle_request data s.controller now src = .ok resp c' pushes) :
    ∀ lost : Bool,
      serverStep s data src now utc lost =
        .next { controller := c', cache := cacheInsert s.cache id ⟨utc, resp⟩ }
          (pushes.map (fun p => SEvent.send p.1 p.2) ++
            [SEvent.draw lost, SEvent.cacheStore id resp] ++
            (if lost then [] else [SEvent.send src resp])) ∧
      cacheGet (cacheInsert s.cache id ⟨utc, resp⟩) id = some ⟨utc, resp⟩ := by
  intro lost
  refine ⟨?_, cacheGet_insert_self s.cache id ⟨utc, resp⟩⟩
  rcases hsem with hsem | ⟨hsem, hfresh⟩
  · exact serverStep_atLeastOnce s data env id rest src now utc lost resp c' pushes
      hdec hid hsem hdisp
  · exact serverStep_atMostOnce_fresh s data env id rest src now utc lost resp c' pushes
      hdec hid hsem hfresh hdisp

set_option maxRecDepth 1000000 in
/-- C9 witness: request 7, both loss outcomes; the cache entry exists in
both, the response is sent only in the non-lost run. -/
theorem claim_C9_witness :
    (serverStep { controller := init_flight_controller, cache := [] } dataALO 99 0 0 true =
        .next sAfterFirst [SEvent.draw true, SEvent.cacheStore (ascii "7") respOk7] ∧
      cacheGet sAfterFirst.cache (ascii "7") = some ⟨0, respOk7⟩) ∧
    (serverStep { controller := init_flight_controller, cache := [] } dataALO 99 0 0 false =
        .next sAfterFirst
          [SEvent.draw false, SEvent.cacheStore (ascii "7") respOk7, SEvent.send 99 respOk7] ∧
      cacheGet sAfterFirst.cache (ascii "7") = some ⟨0, respOk7⟩) :=
  ⟨claim_C9 { controller := init_flight_controller, cache := [] } dataALO envALO
      (ascii "7") [] 99 0 0 respOk7 cAfter1 []
      (by decide) (by decide) (Or.inl (by decide)) (by decide) true,
   claim_C9 { controller := init_flight_controller, cache := [] } dataALO envALO
      (ascii "7") [] 99 0 0 respOk7 cAfter1 []
      (by decide) (by decide) (Or.inl (by decide)) (by decide) false⟩

set_option maxRecDepth 1000000 in
/-- C10.  Both semantics share the one response cache: an at-least-once
request also stores its response bytes under its id, so a later at-most-once
datagram with the same id is answered from the cache with those exact bytes
while the engine state stays untouched — although the at-least-once
original was itself processed without any cache lookup. -/
theorem claim_C10 (s : ServerState) (data1 : List Nat) (env1 : EntryList)
    (id rest1 : List Nat) (src1 now1 : Nat) (utc1 : Int) (lost1 : Bool)
    (resp : List Nat) (c' : FlightController) (pushes : List (Nat × List Nat))
    (data2 : List Nat) (env2 : EntryList) (rest2 : List Nat)
    (src2 now2 : Nat) (utc2 : Int) (lost2 : Bool)
    (hdec1 : deserializeNext .little data1 = .ok (.vmap env1, rest1))
    (hid1 : entGet env1 (ascii "request_id") = some (.vstring id))
    (hsem1 : entGet env1 (ascii "invocation_semantic") = some (.vstring (ascii "at-least-once")))
    (hdisp : server_handle_request data1 s.controller now1 src1 = .ok resp c' pushes)
    (hdec2 : deserializeNext .little data2 = .ok (.vmap env2, rest2))
    (hid2 : entGet env2 (ascii "request_id") = some (.vstring id))
    (hsem2 : entGet env2 (ascii "invocation_semantic") = some (.vstring (ascii "at-most-once"))) :
    serverStep s data1 src1 now1 utc1 lost1 =
      .next { controller := c', cache := cacheInsert s.cache id ⟨utc1, resp⟩ }
        (pushes.map (fun p => SEvent.send p.1 p.2) ++
          [SEvent.draw lost1, SEvent.cacheStore id resp] ++
          (if lost1 then [] else [SEvent.send src1 resp])) ∧
    serverStep { controller := c', cache := cacheInsert s.cache id ⟨utc1, resp⟩ }
        data2 src2 now2 utc2 lost2 =
      .next { controller := c', cache := cacheInsert s.cache id ⟨utc1, resp⟩ }
        [SEvent.send src2 resp] := by
  constructor
  · exact serverStep_atLeastOnce s data1 env1 id rest1 src1 now1 utc1 lost1 resp c' pushes
      hdec1 hid1 hsem1 hdisp
  · exact serverStep_atMostOnce_cached _ data2 env2 id rest2 src2 now2 utc2 lost2 ⟨utc1, resp⟩
      hdec2 hid2 hsem2 (cacheGet_insert_self s.cache id ⟨utc1, resp⟩)

set_option maxRecDepth 1000000 in
/-- C10 witness: request 7 processed under at-least-once (response lost),
then the same id arrives as an at-most-once datagram and is served the
stored bytes with the engine untouched. -/
theorem claim_C10_witness :
    serverStep { controller := init_flight_controller, cache := [] } dataALO 99 0 0 true =
      .next sAfterFirst [SEvent.draw true, SEvent.cacheStore (ascii "7") respOk7] ∧
    serverStep sAfterFirst dataAMO 42 5 5 false =
      .next sAfterFirst [SEvent.send 42 respOk7] :=
  claim_C10 { controller := init_flight_controller, cache := [] } dataALO envALO
    (ascii "7") [] 99 0 0 true respOk7 cAfter1 [] dataAMO envAMO [] 42 5 5 false
    (by decide) (by decide) (by decide) (by decide) (by decide) (by decide) (by decide)

set_option maxRecDepth 1000000 in
/-- C6 (the code against the claim): a well-formed envelope that is missing
the required flight_id field, and one whose flight_id is not numeric, both
make the server panic — fn reserve_seats in server.rs unwraps
payload.get("flight_id") and its parse::<i32>() — instead of producing the
logged structured decode failure after which the loop would continue; the
claim holds only for the action and request_id fields, which fn
handle_request extracts through ok_or. -/
theorem claim_C6 :
    serverStep { controller := init_flight_controller, cache := [] } dataMissingField 99 0 0 false =
      .panic ∧
    serverStep { controller := init_flight_controller, cache := [] } dataBadNumber 99 0 0 false =
      .panic := by
  constructor
  · decide
  · decide

theorem monsGet_cleaned_none (l : List (Int × List MonitoringClient)) (now : Nat) (fid : Int)
    (h : l.any (fun q => q.1 = fid) = false) :
    monsGet ((l.map (fun p => (p.1, p.2.filter (fun cl => now < cl.expiration_time)))).filter
      (fun p => !p.2.isEmpty)) fid = none := by
  induction l with
  | nil => simp [monsGet]
  | cons p t ih =>
    obtain ⟨k, s⟩ := p
    simp only [List.any_cons, Bool.or_eq_false_iff, decide_eq_false_iff_not] at h
    by_cases hkeep : (s.filter (fun cl => now < cl.expiration_time)).isEmpty
    · simp [hkeep, ih h.2]
    · simp [hkeep, monsGet, h.1, ih h.2]

theorem monsGet_cleaned (l : List (Int × List MonitoringClient)) (now : Nat) (fid : Int)
    (hd : monKeysDistinct l = true) :
    monsGet ((l.map (fun p => (p.1, p.2.filter (fun cl => now < cl.expiration_time)))).filter
      (fun p => !p.2.isEmpty)) fid =
    (if (((monsGet l fid).getD []).filter (fun cl => now < cl.expiration_time)).isEmpty then none
     else some (((monsGet l fid).getD []).filter (fun cl => now < cl.expiration_time))) := by
  induction l with
  | nil => simp [monsGet]
  | cons p t ih =>
    obtain ⟨k, s⟩ := p
    simp only [monKeysDistinct, Bool.and_eq_true, Bool.not_eq_true',
      List.any_eq_false, decide_eq_false_iff_not] at hd
    by_cases hk : k = fid
    · subst hk
      have hnone : t.any (fun q => q.1 = k) = false := by
        simp only [List.any_eq_false, decide_eq_false_iff_not]
        intro q hq
        exact hd.1 q hq
      by_cases hkeep : (s.filter (fun cl => now < cl.expiration_time)).isEmpty
      · simp [List.filter_cons, hkeep, monsGet, monsGet_cleaned_none t now k hnone]
      · simp [List.filter_cons, hkeep, monsGet]
    · by_cases hkeep : (s.filter (fun cl => now < cl.expiration_time)).isEmpty
      · simp [List.filter_cons, hkeep, monsGet, hk, ih hd.2]
      · simp [List.filter_cons, hkeep, monsGet, hk, ih hd.2]

theorem sendsOfUpdates (live : List MonitoringClient) (fid n seats : Int) :
    ((live.map (fun cl => (cl.addr, ({ flight_id := fid, seats_available := n } : FlightUpdate)))).filter
        (fun u => decide (u.2.flight_id = fid) && decide (0 < seats))).map
      (fun u => (u.1, pushBytes fid u.2.seats_available)) =
    (if 0 < seats then live.map (fun cl => (cl.addr, pushBytes fid n)) else []) := by
  by_cases hs : 0 < seats
  · rw [if_pos hs]
    rw [List.filter_eq_self.mpr (by
      intro u hu
      obtain ⟨cl, _, rfl⟩ := List.mem_map.mp hu
      simp [hs])]
    rw [List.map_map]
    rfl
  · rw [if_neg hs]
    rw [List.filter_eq_nil_iff.mpr (by
      intro u hu
      simp [hs])]
    rfl

theorem clean_flights (c : FlightController) (now : Nat) :
    (clean_expired_monitors c now).flights = c.flights := rfl

theorem handle_reserve_ok (c : FlightController) (now : Nat) (fid seats : Int)
    (addr : Option Nat) (f : Flight)
    (hdist : monKeysDistinct c.monitoring_clients = true)
    (hf : flightsGet c.flights fid = some f)
    (hrange : f.seats_available < 2147483648)
    (hok : seats ≤ f.seats_available) :
    handle_request c now (.reserveSeats fid seats) addr =
      some ({ clean_expired_monitors c now with flights := flightsSubSeats c.flights fid seats },
        .reservation (.ok ()),
        if 0 < seats then
          (liveMonitors c now fid).map (fun cl => (cl.addr, pushBytes fid (f.seats_available - seats)))
        else []) := by
  have hres : reserve_seats (clean_expired_monitors c now) fid seats =
      ({ clean_expired_monitors c now with flights := flightsSubSeats c.flights fid seats },
        .ok ()) := by
    unfold reserve_seats
    rw [clean_flights, hf]
    simp [if_pos hok]
  have hget1 : flightsGet (flightsSubSeats c.flights fid seats) fid =
      some { f with seats_available := i32Wrap (f.seats_available - seats) } :=
    flightsGet_subSeats_self c.flights fid seats f hf
  have hmons := monsGet_cleaned c.monitoring_clients now fid hdist
  simp only [handle_request, hres, prepare_monitoring_updates]
  rw [show ({ clean_expired_monitors c now with
      flights := flightsSubSeats c.flights fid seats } : FlightController).monitoring_clients =
      (clean_expired_monitors c now).monitoring_clients from rfl]
  unfold clean_expired_monitors
  rw [hmons]
  by_cases hkeep : (((monsGet c.monitoring_clients fid).getD []).filter
      (fun cl => now < cl.expiration_time)).isEmpty
  · simp only [if_pos hkeep]
    have hlive : liveMonitors c now fid = [] := by
      unfold liveMonitors
      exact List.isEmpty_iff.mp hkeep
    simp [hlive]
  · simp only [if_neg hkeep]
    rw [hget1]
    simp only [liveMonitors]
    simp only [Option.some.injEq, Prod.mk.injEq, true_and]
    by_cases hs : 0 < seats
    · have hw : i32Wrap (f.seats_available - seats) = f.seats_available - seats :=
        i32Wrap_eq_self _ (by omega) (by omega)
      simp only [hw]
      have hsends := sendsOfUpdates (((monsGet c.monitoring_clients fid).getD []).filter
        (fun cl => now < cl.expiration_time)) fid (f.seats_available - seats) seats
      rw [← hsends]
      congr 1
      apply List.filter_congr
      intro u _
      simp
    · have hsends := sendsOfUpdates (((monsGet c.monitoring_clients fid).getD []).filter
        (fun cl => now < cl.expiration_time)) fid (i32Wrap (f.seats_available - seats)) seats
      rw [if_neg hs] at hsends ⊢
      rw [← hsends]
      congr 1
      apply List.filter_congr
      intro u _
      simp

/-- C5.  After the sweep at the start of the request, a successful
ReserveSeats with positive seats makes the engine emit exactly one update
per live subscription of that flight (those whose expiration is strictly
in the future at the sweep), each carrying the post-decrement
seats_available; a reservation of 0 seats succeeds but emits nothing; and
no update is attributed to a subscription whose expiration had passed (the
emitted list ranges exactly over liveMonitors, and every live monitor is
unexpired).  monKeysDistinct is the HashMap key-uniqueness invariant of
the registry. -/
theorem claim_C5 (c : FlightController) (now : Nat) (fid seats : Int)
    (addr : Option Nat) (f : Flight)
    (hdist : monKeysDistinct c.monitoring_clients = true)
    (hf : flightsGet c.flights fid = some f)
    (hrange : f.seats_available < 2147483648)
    (hnn : 0 ≤ f.seats_available)
    (hok : seats ≤ f.seats_available) :
    handle_request c now (.reserveSeats fid seats) addr =
      some ({ clean_expired_monitors c now with flights := flightsSubSeats c.flights fid seats },
        .reservation (.ok ()),
        if 0 < seats then
          (liveMonitors c now fid).map (fun cl => (cl.addr, pushBytes fid (f.seats_available - seats)))
        else []) ∧
    handle_request c now (.reserveSeats fid 0) addr =
      some ({ clean_expired_monitors c now with flights := flightsSubSeats c.flights fid 0 },
        .reservation (.ok ()), []) ∧
    (∀ cl ∈ liveMonitors c now fid, now < cl.expiration_time) := by
  refine ⟨handle_reserve_ok c now fid seats addr f hdist hf hrange hok, ?_, ?_⟩
  · have h0 := handle_reserve_ok c now fid 0 addr f hdist hf hrange hnn
    simpa using h0
  · intro cl hcl
    unfold liveMonitors at hcl
    rw [List.mem_filter] at hcl
    exact of_decide_eq_true hcl.2

/-- C5 witness: reserving 2 seats pushes exactly one update, to the live
subscriber 7 with the post-decrement count 98; the expired subscriber 8
gets nothing (it is not live); reserving 0 seats pushes nothing. -/
theorem claim_C5_witness :
    handle_request cMon 5 (.reserveSeats 1 2) none =
      some ({ clean_expired_monitors cMon 5 with flights := flightsSubSeats cMon.flights 1 2 },
        .reservation (.ok ()),
        if 0 < (2 : Int) then
          (liveMonitors cMon 5 1).map
            (fun cl => (cl.addr, pushBytes 1 (nyFlight1.seats_available - 2)))
        else []) ∧
    handle_request cMon 5 (.reserveSeats 1 0) none =
      some ({ clean_expired_monitors cMon 5 with flights := flightsSubSeats cMon.flights 1 0 },
        .reservation (.ok ()), []) ∧
    liveMonitors cMon 5 1 = [⟨7, 10⟩] :=
  ⟨(claim_C5 cMon 5 1 2 none nyFlight1 (by decide) (by decide) (by decide) (by decide)
      (by decide)).1,
   (claim_C5 cMon 5 1 2 none nyFlight1 (by decide) (by decide) (by decide) (by decide)
      (by decide)).2.1,
   by decide⟩

/-! ## Claim C7: the client retry loop never times out -/

theorem clientRun_noResponse (n : Nat) : ∀ (retry a r : Nat),
    clientRun retry a r (List.replicate n none) =
      .looping (a + n) (r + (min (retry - 1) (a + n) - min (retry - 1) a)) := by
  induction n with
  | zero =>
    intro retry a r
    simp [clientRun]
  | succ n ih =>
    intro retry a r
    rw [List.replicate_succ]
    simp only [clientRun]
    rw [ih retry (a + 1) (if a + 1 < retry then r + 1 else r)]
    congr 1
    · omega
    · split <;> omega

/-- C7 (the code against the claim): whatever the configured retry count,
after any number n of elapsed receive windows with no response the client
loop is still running — clientRun never leaves the looping state, so the
operation never fails with the TimedOut error built after the loop (that
expression is reachable only by a break that requires a received
response) — while the identical request bytes are resent only min(retry-1, n)
times; so resending is bounded as claimed, but the routine does not
terminate with a timeout error after the attempt budget. -/
theorem claim_C7 (retry n : Nat) :
    clientRun retry 0 0 (List.replicate n none) = .looping n (min (retry - 1) n) := by
  have h := clientRun_noResponse n retry 0 0
  simpa using h

end RustServer
